import Mathlib

/-
Verification of the Jira CSV normalizer (scripts/normalize_jira_csv.py).

The embedding below translates the Python source into Lean:
  - parse_date, DATE_FORMATS, the truncated fallback parse;
  - first_sprint_value, normalize_row, OUTPUT_COLUMNS;
  - the name-to-first-index header map of read_csv_headers;
  - the control flow of main (missing input, row padding, output rows).

The Python date parsing uses datetime.strptime. We embed strptime for
exactly the directives appearing in the source formats (d, b, y, Y, m,
H, I, M, S, f, p and literal separators), following the CPython
implementation in Lib/_strptime.py: each directive compiles to a regex
alternation tried in a fixed order with backtracking, a whitespace in
the format matches one or more whitespace characters, month names and
AM/PM markers match case-insensitively, a full match of the whole
string is required, and the matched fields are then passed to the
datetime constructor, which validates ranges (year 1..9999, day within
the month, second at most 59) and raises ValueError otherwise; that
error is caught by parse_date and treated as a failed format.
strftime with zero-padded directives is embedded as digit padding.
All values read from the csv module are strings, so the isinstance/str
coercion in normalize_row is the identity and is dropped.
-/

/-- Whitespace as matched by the regex class used by strptime and by
str.strip (the ASCII cases; the source data is ASCII). -/
def pyWs (c : Char) : Bool :=
  c = ' ' || c = '\t' || c = '\n' || c = '\r' || c = '\x0b' || c = '\x0c'

/-- Numeric value of a decimal digit character. -/
def dv (c : Char) : Nat := c.toNat - 48

/-- Digit in the regex class [1-9]. -/
def d19 (c : Char) : Bool := decide ('1' ≤ c ∧ c ≤ '9')

/-- Tokens of a compiled strptime format: literal characters, the
whitespace run produced from a literal space, and the directives used
by the source formats. -/
inductive Tok where
  | lit (c : Char)
  | ws
  | D | M | Y2 | Y4 | H24 | H12 | Mi | Sec | Frac | AmPm | Mon
deriving DecidableEq, Repr

/-- The fields collected while matching, mirroring found_dict in
Lib/_strptime.py. -/
structure PEnv where
  y : Option Nat := none
  bigY : Option Nat := none
  m : Option Nat := none
  d : Option Nat := none
  hr : Option Nat := none
  i12 : Option Nat := none
  mi : Option Nat := none
  s : Option Nat := none
  fr : Option Nat := none
  p : Option Nat := none
deriving DecidableEq, Repr

/-- Length of the leading whitespace run. -/
def leadWs : List Char → Nat
  | [] => 0
  | c :: r => if pyWs c then leadWs r + 1 else 0

/-- Length of the leading digit run. -/
def leadDigits : List Char → Nat
  | [] => 0
  | c :: r => if c.isDigit then leadDigits r + 1 else 0

/-- A numeric directive whose regex is an alternation of two-digit
patterns followed by a one-digit pattern: the possible matches in the
order the regex engine tries them. -/
def numAlts (twoTest : Char → Char → Bool) (oneTest : Char → Bool) :
    List Char → List (Nat × List Char)
  | c1 :: c2 :: r =>
      (if twoTest c1 c2 then [(10 * dv c1 + dv c2, r)] else []) ++
      (if oneTest c1 then [(dv c1, c2 :: r)] else [])
  | [c1] => if oneTest c1 then [(dv c1, [])] else []
  | [] => []

/-- Abbreviated month names of the C locale, matched case-insensitively
by the %b directive. -/
def monthNum (a b c : Char) : Option Nat :=
  match a.toLower, b.toLower, c.toLower with
  | 'j', 'a', 'n' => some 1
  | 'f', 'e', 'b' => some 2
  | 'm', 'a', 'r' => some 3
  | 'a', 'p', 'r' => some 4
  | 'm', 'a', 'y' => some 5
  | 'j', 'u', 'n' => some 6
  | 'j', 'u', 'l' => some 7
  | 'a', 'u', 'g' => some 8
  | 's', 'e', 'p' => some 9
  | 'o', 'c', 't' => some 10
  | 'n', 'o', 'v' => some 11
  | 'd', 'e', 'c' => some 12
  | _, _, _ => none

/-- Microsecond value of a %f match: the digits, right-padded with
zeros to six places. -/
def fracVal (ds : List Char) : Nat :=
  (ds.foldl (fun acc c => acc * 10 + dv c) 0) * 10 ^ (6 - ds.length)

/-- Two-digit part of the %m regex (1[0-2]|0[1-9]). -/
def mTwo (c1 c2 : Char) : Bool :=
  (c1 = '1' && (c2 = '0' || c2 = '1' || c2 = '2')) || (c1 = '0' && d19 c2)

/-- Two-digit part of the %d regex (3[01]|[12][0-9]|0[1-9]). -/
def dTwo (c1 c2 : Char) : Bool :=
  (c1 = '3' && (c2 = '0' || c2 = '1')) || ((c1 = '1' || c1 = '2') && c2.isDigit) ||
    (c1 = '0' && d19 c2)

/-- Two-digit part of the %H regex (2[0-3]|[0-1][0-9]). -/
def hTwo (c1 c2 : Char) : Bool :=
  (c1 = '2' && (c2 = '0' || c2 = '1' || c2 = '2' || c2 = '3')) ||
    ((c1 = '0' || c1 = '1') && c2.isDigit)

/-- Two-digit part of the %M regex ([0-5][0-9]). -/
def miTwo (c1 c2 : Char) : Bool :=
  (decide ('0' ≤ c1 ∧ c1 ≤ '5')) && c2.isDigit

/-- Two-digit part of the %S regex (6[0-1]|[0-5][0-9]). -/
def secTwo (c1 c2 : Char) : Bool :=
  (c1 = '6' && (c2 = '0' || c2 = '1')) || ((decide ('0' ≤ c1 ∧ c1 ≤ '5')) && c2.isDigit)

/-- The candidate matches of one token at the head of the input, in the
order the regex engine tries them, each with the captured value and the
remaining input. -/
def alts : Tok → List Char → List (Nat × List Char)
  | .lit ch, c :: r => if c = ch then [(0, r)] else []
  | .lit _, [] => []
  | .ws, cs =>
      let k := leadWs cs
      (List.range k).map (fun t => (0, cs.drop (k - t)))
  | .Y4, c1 :: c2 :: c3 :: c4 :: r =>
      if c1.isDigit && c2.isDigit && c3.isDigit && c4.isDigit then
        [(((dv c1 * 10 + dv c2) * 10 + dv c3) * 10 + dv c4, r)]
      else []
  | .Y4, _ => []
  | .Y2, c1 :: c2 :: r =>
      if c1.isDigit && c2.isDigit then [(10 * dv c1 + dv c2, r)] else []
  | .Y2, _ => []
  | .M, cs => numAlts mTwo d19 cs
  | .D, cs => numAlts dTwo d19 cs
  | .H24, cs => numAlts hTwo Char.isDigit cs
  | .H12, cs => numAlts mTwo d19 cs
  | .Mi, cs => numAlts miTwo Char.isDigit cs
  | .Sec, cs => numAlts secTwo Char.isDigit cs
  | .Frac, cs =>
      let k := min (leadDigits cs) 6
      (List.range k).map (fun t => (fracVal (cs.take (k - t)), cs.drop (k - t)))
  | .AmPm, c1 :: c2 :: r =>
      if c1.toLower = 'a' && c2.toLower = 'm' then [(0, r)]
      else if c1.toLower = 'p' && c2.toLower = 'm' then [(1, r)]
      else []
  | .AmPm, _ => []
  | .Mon, c1 :: c2 :: c3 :: r =>
      match monthNum c1 c2 c3 with
      | some v => [(v, r)]
      | none => []
  | .Mon, _ => []

/-- Record the captured value of a directive. -/
def update (t : Tok) (v : Nat) (e : PEnv) : PEnv :=
  match t with
  | .Y2 => { e with y := some v }
  | .Y4 => { e with bigY := some v }
  | .M => { e with m := some v }
  | .Mon => { e with m := some v }
  | .D => { e with d := some v }
  | .H24 => { e with hr := some v }
  | .H12 => { e with i12 := some v }
  | .Mi => { e with mi := some v }
  | .Sec => { e with s := some v }
  | .Frac => { e with fr := some v }
  | .AmPm => { e with p := some v }
  | .lit _ => e
  | .ws => e

/-- Regex matching of a compiled format with backtracking: each token
offers its candidate matches in order, and the first candidate whose
continuation matches the rest of the string wins; the whole string must
be consumed. -/
def runToks : List Tok → List Char → PEnv → Option PEnv
  | [], [], e => some e
  | [], _ :: _, _ => none
  | t :: ts, cs, e =>
      (alts t cs).findSome? (fun vr => runToks ts vr.2 (update t vr.1 e))

/-- The datetime produced by a successful strptime call. -/
structure PyDateTime where
  year : Nat
  month : Nat
  day : Nat
  hour : Nat
  minute : Nat
  second : Nat
  micro : Nat
deriving DecidableEq, Repr

/-- Gregorian leap year rule used by the datetime module. -/
def isLeap (y : Nat) : Bool := y % 4 = 0 && (y % 100 ≠ 0 || y % 400 = 0)

/-- Days in a month as validated by the datetime constructor. -/
def daysInMonth (y m : Nat) : Nat :=
  if m = 2 then (if isLeap y then 29 else 28)
  else if m = 4 || m = 6 || m = 9 || m = 11 then 30
  else 31

/-- Assemble the matched fields into a datetime, mirroring the default
values and the two-digit year and AM/PM rules of Lib/_strptime.py, and
the range validation of the datetime constructor; None encodes the
ValueError that parse_date catches. -/
def buildDateTime (e : PEnv) : Option PyDateTime :=
  let year :=
    match e.bigY with
    | some v => v
    | none =>
      match e.y with
      | some v => if v ≤ 68 then 2000 + v else 1900 + v
      | none => 1900
  let month := e.m.getD 1
  let day := e.d.getD 1
  let hour :=
    match e.hr with
    | some v => v
    | none =>
      match e.i12, e.p with
      | some v, some pa => if pa = 0 then (if v = 12 then 0 else v)
                           else (if v = 12 then 12 else v + 12)
      | some v, none => v
      | none, _ => 0
  let minute := e.mi.getD 0
  let second := e.s.getD 0
  let micro := e.fr.getD 0
  if 1 ≤ year ∧ year ≤ 9999 ∧ 1 ≤ month ∧ month ≤ 12 ∧ 1 ≤ day ∧
      day ≤ daysInMonth year month ∧ hour ≤ 23 ∧ minute ≤ 59 ∧ second ≤ 59 ∧
      micro ≤ 999999 then
    some ⟨year, month, day, hour, minute, second, micro⟩
  else none

/-- datetime.strptime on a compiled format. -/
def strptime (fmt : List Tok) (cs : List Char) : Option PyDateTime :=
  (runToks fmt cs {}).bind buildDateTime

/-- Compiled form of the format string d/b/y I:M p. -/
def fmt1 : List Tok :=
  [.D, .lit '/', .Mon, .lit '/', .Y2, .ws, .H12, .lit ':', .Mi, .ws, .AmPm]

/-- Compiled form of the format string d/b./y H:M. -/
def fmt2 : List Tok :=
  [.D, .lit '/', .Mon, .lit '.', .lit '/', .Y2, .ws, .H24, .lit ':', .Mi]

/-- Compiled form of the format string d/b/y H:M. -/
def fmt3 : List Tok :=
  [.D, .lit '/', .Mon, .lit '/', .Y2, .ws, .H24, .lit ':', .Mi]

/-- Compiled form of the format string Y-m-d H:M:S.f. -/
def fmt4 : List Tok :=
  [.Y4, .lit '-', .M, .lit '-', .D, .ws, .H24, .lit ':', .Mi, .lit ':', .Sec,
   .lit '.', .Frac]

/-- Compiled form of the format string d/b./y I:M p. -/
def fmt5 : List Tok :=
  [.D, .lit '/', .Mon, .lit '.', .lit '/', .Y2, .ws, .H12, .lit ':', .Mi, .ws, .AmPm]

/-- Compiled form of the format string d/b/y. -/
def fmt6 : List Tok := [.D, .lit '/', .Mon, .lit '/', .Y2]

/-- Compiled form of the format string Y-m-d. -/
def fmt7 : List Tok := [.Y4, .lit '-', .M, .lit '-', .D]

/-- DATE_FORMATS of the source, in source order. -/
def DATE_FORMATS : List (List Tok) := [fmt1, fmt2, fmt3, fmt4, fmt5, fmt6, fmt7]

/-- First format of the truncated fallback loop: Y-m-d H:M:S. -/
def FALLBACK1 : List Tok :=
  [.Y4, .lit '-', .M, .lit '-', .D, .ws, .H24, .lit ':', .Mi, .lit ':', .Sec]

/-- Second format of the truncated fallback loop: Y-m-d. -/
def FALLBACK2 : List Tok := fmt7

/-- Two-digit zero-padded rendering used by strftime. -/
def pad2 (n : Nat) : List Char := [Char.ofNat (48 + n / 10 % 10), Char.ofNat (48 + n % 10)]

/-- Four-digit zero-padded rendering used by strftime for the year. -/
def pad4 (n : Nat) : List Char :=
  [Char.ofNat (48 + n / 1000 % 10), Char.ofNat (48 + n / 100 % 10),
   Char.ofNat (48 + n / 10 % 10), Char.ofNat (48 + n % 10)]

/-- strftime with the format Y-m-d H:M:S. -/
def strftimeFull (dt : PyDateTime) : String :=
  String.mk (pad4 dt.year ++ '-' :: pad2 dt.month ++ '-' :: pad2 dt.day ++
    ' ' :: pad2 dt.hour ++ ':' :: pad2 dt.minute ++ ':' :: pad2 dt.second)

/-- strftime with the format Y-m-d. -/
def strftimeDate (dt : PyDateTime) : String :=
  String.mk (pad4 dt.year ++ '-' :: pad2 dt.month ++ '-' :: pad2 dt.day)

/-- str.strip on a character list. -/
def pyStrip (cs : List Char) : List Char :=
  ((cs.dropWhile pyWs).reverse.dropWhile pyWs).reverse

/-- str.strip on a string. -/
def pyStripS (s : String) : String := String.mk (pyStrip s.data)

/-- The loop of parse_date over DATE_FORMATS: first successful format
wins. -/
def tryFormats : List (List Tok) → List Char → Option PyDateTime
  | [], _ => none
  | f :: fs, cs =>
    match strptime f cs with
    | some dt => some dt
    | none => tryFormats fs cs

/-- parse_date from the source: empty or whitespace-only input gives
the empty string; otherwise the stripped value is tried against
DATE_FORMATS in order; on failure the first 19 characters are tried
against the two fallback formats and rendered with time exactly when
the stripped value contains a space; if everything fails the stripped
value is returned. -/
def parse_date (value : String) : String :=
  let v := pyStrip value.data
  if v = [] then ""
  else
    match tryFormats DATE_FORMATS v with
    | some dt => strftimeFull dt
    | none =>
      match strptime FALLBACK1 (v.take 19) with
      | some dt => if v.contains ' ' then strftimeFull dt else strftimeDate dt
      | none =>
        match strptime FALLBACK2 (v.take 19) with
        | some dt => if v.contains ' ' then strftimeFull dt else strftimeDate dt
        | none => String.mk v

/-- OUTPUT_COLUMNS from the source, in source order. -/
def OUTPUT_COLUMNS : List String :=
  ["Summary", "Issue key", "Issue id", "Issue Type", "Status", "Project key",
   "Project name", "Priority", "Resolution", "Assignee", "Reporter", "Created",
   "Updated", "Resolved", "Due date", "Team Name", "Sprint",
   "Custom field (Produto)", "Status Category", "Status Category Changed"]

/-- The date_columns set built in main. -/
def date_columns : List String :=
  ["Created", "Updated", "Resolved", "Due date", "Status Category Changed"]

/-- Lookup in an association list, embedding Python dict access for the
dicts built by the source (insertion order, first binding wins). -/
def alookup {α : Type} : List (String × α) → String → Option α
  | [], _ => none
  | (k, v) :: rest, n => if k = n then some v else alookup rest n

/-- Python enumerate on a list of strings. -/
def pyEnum : Nat → List String → List (Nat × String)
  | _, [] => []
  | i, x :: xs => (i, x) :: pyEnum (i + 1) xs

/-- The loop body of first_sprint_value over the enumerated header. -/
def first_sprint_aux (row_list : List String) : List (Nat × String) → String
  | [] => ""
  | (i, name) :: rest =>
    if name = "Sprint" ∧ i < row_list.length then
      let cell := row_list.getD i ""
      let val := if cell ≠ "" then pyStripS cell else ""
      if val ≠ "" then val else first_sprint_aux row_list rest
    else first_sprint_aux row_list rest

/-- first_sprint_value from the source: the first non-empty stripped
value among the columns named Sprint. -/
def first_sprint_value (row_list header : List String) : String :=
  first_sprint_aux row_list (pyEnum 0 header)

/-- The value stored by one iteration of the loop of normalize_row for
the column col. -/
def normField (row_list header : List String) (name_to_idx : List (String × Nat))
    (dcols : List String) (col : String) : String :=
  if col = "Sprint" then first_sprint_value row_list header
  else
    match alookup name_to_idx col with
    | none => ""
    | some idx =>
      let val := row_list.getD idx ""
      if dcols.contains col then parse_date val else val

/-- normalize_row from the source. The output dict with its insertion
order is embedded as an association list in OUTPUT_COLUMNS order. -/
def normalize_row (row_list header : List String) (name_to_idx : List (String × Nat))
    (dcols : List String) : List (String × String) :=
  OUTPUT_COLUMNS.map fun col =>
    (col, normField row_list header name_to_idx dcols col)

/-- The loop of read_csv_headers that fills the name-to-index dict,
keeping the first index of each repeated name. -/
def build_name_to_idx : List String → Nat → List (String × Nat) → List (String × Nat)
  | [], _, acc => acc
  | n :: rest, i, acc =>
    build_name_to_idx rest (i + 1) (if (alookup acc n).isSome then acc else acc ++ [(n, i)])

/-- The name-to-index map returned by read_csv_headers. -/
def read_csv_headers_map (header : List String) : List (String × Nat) :=
  build_name_to_idx header 0 []

/-- The padding of a short row performed in main before normalize_row. -/
def padRow (row : List String) (n : Nat) : List String :=
  row ++ List.replicate (n - row.length) ""

/-- Observable outcome of one run of main: process exit code, the rows
written to the output file if any, whether the missing-input diagnostic
was printed, and the row count of the confirmation message. -/
structure MainResult where
  exitCode : Nat
  output : Option (List (List (String × String)))
  missingDiagnostic : Bool
  countMessage : Option Nat
deriving DecidableEq, Repr

/-- Control flow of main over an abstract input file, given as None
when the path does not exist and otherwise as the parsed csv records.
A missing input prints the diagnostic and exits 1 before the output
file is opened. An existing but empty input makes next(reader) in
read_csv_headers raise StopIteration, which is not caught: the process
dies with a traceback and exit code 1 before the output file is
opened. Otherwise every record is padded, normalized and written, and
main prints the row count and exits 0. -/
def main_model (input : Option (List (List String))) : MainResult :=
  match input with
  | none => ⟨1, none, true, none⟩
  | some [] => ⟨1, none, false, none⟩
  | some (header :: rows) =>
    ⟨0,
     some (rows.map fun r =>
       normalize_row (padRow r header.length) header (read_csv_headers_map header)
         date_columns),
     false, some rows.length⟩

/-- Claim C3 as literally stated: the raw value of the first Sprint
column whose stripped content is non-empty. -/
def sprintClaimRaw (row_list : List String) : List (Nat × String) → String
  | [] => ""
  | (i, name) :: rest =>
    if name = "Sprint" ∧ i < row_list.length ∧ pyStripS (row_list.getD i "") ≠ "" then
      row_list.getD i ""
    else sprintClaimRaw row_list rest

/-- Amended claim C3: the stripped value of the first Sprint column
whose stripped content is non-empty. -/
def sprintSpecTrimmed (row_list : List String) : List (Nat × String) → String
  | [] => ""
  | (i, name) :: rest =>
    if name = "Sprint" ∧ i < row_list.length ∧ pyStripS (row_list.getD i "") ≠ "" then
      pyStripS (row_list.getD i "")
    else sprintSpecTrimmed row_list rest

/-- Strings of the shape Y-m-d H:M:S with four plus twice five digit
positions: the canonical date format of the specification. -/
def isCanonShape (s : String) : Bool :=
  match s.data with
  | [y1, y2, y3, y4, h1, m1, m2, h2, d1, d2, sp, a1, a2, c1, b1, b2, c2, s1, s2] =>
    y1.isDigit && y2.isDigit && y3.isDigit && y4.isDigit && h1 = '-' && m1.isDigit &&
    m2.isDigit && h2 = '-' && d1.isDigit && d2.isDigit && sp = ' ' && a1.isDigit &&
    a2.isDigit && c1 = ':' && b1.isDigit && b2.isDigit && c2 = ':' && s1.isDigit &&
    s2.isDigit
  | _ => false

/-- Strings of the shape Y-m-d: the date-only rendering of the
truncated fallback. -/
def isDateOnlyShape (s : String) : Bool :=
  match s.data with
  | [y1, y2, y3, y4, h1, m1, m2, h2, d1, d2] =>
    y1.isDigit && y2.isDigit && y3.isDigit && y4.isDigit && h1 = '-' && m1.isDigit &&
    m2.isDigit && h2 = '-' && d1.isDigit && d2.isDigit
  | _ => false

/-- First index of a name in the header, the specification-side view of
the name-to-index dict. -/
def firstIdx : List String → String → Option Nat
  | [], _ => none
  | h :: t, name => if h = name then some 0 else (firstIdx t name).map (· + 1)

lemma alookup_append {α : Type} (l1 l2 : List (String × α)) (n : String) :
    alookup (l1 ++ l2) n = (alookup l1 n).or (alookup l2 n) := by
  induction l1 with
  | nil => simp [alookup]
  | cons p rest ih =>
    obtain ⟨k, v⟩ := p
    by_cases h : k = n <;> simp [alookup, h, ih]

lemma alookup_map_of_mem (l : List String) (g : String → String) (col : String)
    (h : col ∈ l) : alookup (l.map fun c => (c, g c)) col = some (g col) := by
  induction l with
  | nil => simp at h
  | cons a rest ih =>
    rcases List.mem_cons.mp h with h1 | h1
    · subst h1; simp [alookup]
    · by_cases ha : a = col
      · subst ha; simp [alookup]
      · simp [alookup, ha, ih h1]

lemma alookup_map_of_not_mem (l : List String) (g : String → String) (col : String)
    (h : ¬ col ∈ l) : alookup (l.map fun c => (c, g c)) col = none := by
  induction l with
  | nil => simp [alookup]
  | cons a rest ih =>
    simp only [List.mem_cons, not_or] at h
    simp [alookup, Ne.symm h.1, ih h.2]

lemma keys_map_self (l : List String) (g : String → String) :
    (l.map fun c => (c, g c)).map Prod.fst = l := by
  induction l with
  | nil => rfl
  | cons a rest ih => simp [ih]

lemma build_name_to_idx_lookup (rest : List String) :
    ∀ (i : Nat) (acc : List (String × Nat)) (name : String),
    alookup (build_name_to_idx rest i acc) name =
      (alookup acc name).or ((firstIdx rest name).map (· + i)) := by
  induction rest with
  | nil => intro i acc name; simp [build_name_to_idx, firstIdx]
  | cons n tail ih =>
    intro i acc name
    simp only [build_name_to_idx, ih]
    by_cases hn : n = name
    · subst hn
      cases hacc : alookup acc n with
      | some v => simp [hacc, firstIdx, Option.or]
      | none =>
        simp only [hacc, Option.isSome_none, Bool.false_eq_true, if_false]
        simp [alookup_append, hacc, alookup, firstIdx, Option.or]
    · have hx : alookup (if (alookup acc n).isSome = true then acc
          else acc ++ [(n, i)]) name = alookup acc name := by
        by_cases hs : (alookup acc n).isSome = true
        · simp [hs]
        · rw [if_neg hs, alookup_append]
          cases alookup acc name <;> simp [alookup, hn, Option.or]
      rw [hx]
      simp only [firstIdx, hn, if_false]
      cases hfi : firstIdx tail name with
      | none => simp
      | some j => simp [Nat.add_assoc, Nat.add_comm 1 i]

lemma read_csv_headers_map_lookup (header : List String) (name : String) :
    alookup (read_csv_headers_map header) name = firstIdx header name := by
  simp only [read_csv_headers_map, build_name_to_idx_lookup]
  cases firstIdx header name <;> simp [alookup, Option.or]

lemma firstIdx_eq_none (header : List String) (name : String) (h : ¬ name ∈ header) :
    firstIdx header name = none := by
  induction header with
  | nil => simp [firstIdx]
  | cons a rest ih =>
    simp only [List.mem_cons, not_or] at h
    simp [firstIdx, Ne.symm h.1, ih h.2]

lemma firstIdx_append_cons (pre post : List String) (col : String) (h : ¬ col ∈ pre) :
    firstIdx (pre ++ col :: post) col = some pre.length := by
  induction pre with
  | nil => simp [firstIdx]
  | cons a rest ih =>
    simp only [List.mem_cons, not_or] at h
    simp [firstIdx, Ne.symm h.1, ih h.2]

lemma pyEnum_snd_mem (l : List String) : ∀ (i : Nat) (p : Nat × String),
    p ∈ pyEnum i l → p.2 ∈ l := by
  induction l with
  | nil => intro i p hp; simp [pyEnum] at hp
  | cons a rest ih =>
    intro i p hp
    simp only [pyEnum, List.mem_cons] at hp
    rcases hp with hp | hp
    · subst hp; simp
    · exact List.mem_cons_of_mem _ (ih (i + 1) p hp)

lemma first_sprint_aux_no_sprint (row : List String) (l : List (Nat × String))
    (h : ∀ p ∈ l, p.2 ≠ "Sprint") : first_sprint_aux row l = "" := by
  induction l with
  | nil => rfl
  | cons p rest ih =>
    obtain ⟨i, name⟩ := p
    have hname : name ≠ "Sprint" := h (i, name) (List.mem_cons_self _ _)
    simp only [first_sprint_aux]
    rw [if_neg (by simp [hname])]
    exact ih (fun q hq => h q (List.mem_cons_of_mem _ hq))

lemma first_sprint_value_not_mem (row header : List String)
    (h : ¬ "Sprint" ∈ header) : first_sprint_value row header = "" := by
  refine first_sprint_aux_no_sprint row _ (fun p hp hps => ?_)
  exact h (hps ▸ pyEnum_snd_mem header 0 p hp)

lemma getD_padRow (row : List String) (n i : Nat) :
    (padRow row n).getD i "" = row.getD i "" := by
  induction row generalizing i n with
  | nil =>
    simp only [padRow, List.nil_append]
    induction (n - List.length ([] : List String)) generalizing i with
    | zero => simp
    | succ k ihk =>
      cases i with
      | zero => simp [List.replicate]
      | succ j => simp [List.replicate]
  | cons a rest ih =>
    cases i with
    | zero => simp [padRow]
    | succ j =>
      have hc : padRow (a :: rest) n = a :: padRow rest (n - 1) := by
        simp only [padRow, List.cons_append, List.length_cons]
        have hn : n - (rest.length + 1) = n - 1 - rest.length := by omega
        rw [hn]
      rw [hc]
      simpa using ih (n - 1) j

lemma first_sprint_aux_padRow (row : List String) (n : Nat) :
    ∀ l : List (Nat × String), first_sprint_aux (padRow row n) l = first_sprint_aux row l := by
  intro l
  induction l with
  | nil => rfl
  | cons p rest ih =>
    obtain ⟨i, name⟩ := p
    by_cases hname : name = "Sprint"
    · subst hname
      by_cases hir : i < row.length
      · have hip : i < (padRow row n).length :=
          Nat.lt_of_lt_of_le hir (by simp [padRow])
        have hg : List.getD (padRow row n) i "" = List.getD row i "" := getD_padRow row n i
        rw [List.getD_eq_getElem _ _ hip, List.getD_eq_getElem _ _ hir] at hg
        simp [first_sprint_aux, hip, hir, hg, ih]
      · have hcell : List.getD (padRow row n) i "" = "" := by
          rw [getD_padRow]
          exact List.getD_eq_default row "" (Nat.le_of_not_lt hir)
        by_cases hip : i < (padRow row n).length
        · rw [List.getD_eq_getElem _ _ hip] at hcell
          simp [first_sprint_aux, hip, hir, hcell, ih]
        · simp [first_sprint_aux, hip, hir, ih]
    · simp [first_sprint_aux, hname, ih]

lemma parse_date_empty : parse_date "" = "" := by decide

lemma normField_padRow (row header : List String) (m : List (String × Nat))
    (dc : List String) (col : String) :
    normField (padRow row header.length) header m dc col = normField row header m dc col := by
  unfold normField
  by_cases hcol : col = "Sprint"
  · simp only [hcol, if_true, first_sprint_value, first_sprint_aux_padRow]
  · simp only [hcol, if_false]
    cases alookup m col with
    | none => rfl
    | some idx => simp only [getD_padRow]

/-- C10: for every data row that has fewer fields than the header,
normalization never fails: the row is padded with empty strings up to
the header length before mapping, padding does not change the result of
normalize_row, and any canonical field whose header index lies beyond
the length of the row yields the empty string; normalize_row is total
over rows of any length. -/
theorem c10_row_padding_total (header row : List String) :
    normalize_row (padRow row header.length) header (read_csv_headers_map header)
        date_columns =
      normalize_row row header (read_csv_headers_map header) date_columns ∧
    (∀ col idx, col ∈ OUTPUT_COLUMNS → col ≠ "Sprint" →
      alookup (read_csv_headers_map header) col = some idx → row.length ≤ idx →
      alookup (normalize_row row header (read_csv_headers_map header) date_columns) col =
        some "") := by
  constructor
  · unfold normalize_row
    have hf : (fun col => (col,
        normField (padRow row header.length) header (read_csv_headers_map header)
          date_columns col)) =
        (fun col => (col, normField row header (read_csv_headers_map header)
          date_columns col)) := by
      funext col
      rw [normField_padRow]
    rw [hf]
  · intro col idx hmem hne hidx hlen
    rw [normalize_row, alookup_map_of_mem _ _ _ hmem]
    simp only [normField, if_neg hne, hidx]
    have hget : List.getD row idx "" = "" := List.getD_eq_default row "" hlen
    by_cases hdc : date_columns.contains col = true
    · simp only [hget, if_pos hdc, parse_date_empty]
    · simp only [hget, if_neg hdc]

/-- C10 witness: a one-column header with an empty row maps the column
to the empty string. -/
theorem c10_witness :
    alookup (normalize_row [] ["Created"] (read_csv_headers_map ["Created"])
      date_columns) "Created" = some "" :=
  (c10_row_padding_total ["Created"] []).2 "Created" 0 (by decide) (by decide)
    (by decide) (by decide)

/-- C1: for every raw record and raw header, normalize_row produces a
row with exactly the 20 fixed keys of OUTPUT_COLUMNS in the fixed
order, and every canonical field whose name is absent from the raw
header is mapped to the empty string. -/
theorem c1_canonical_row_keys (header row : List String) :
    OUTPUT_COLUMNS.length = 20 ∧
    (normalize_row row header (read_csv_headers_map header) date_columns).map Prod.fst =
      OUTPUT_COLUMNS ∧
    (∀ col, col ∈ OUTPUT_COLUMNS → ¬ col ∈ header →
      alookup (normalize_row row header (read_csv_headers_map header) date_columns) col =
        some "") := by
  refine ⟨by decide, keys_map_self _ _, ?_⟩
  intro col hmem habs
  rw [normalize_row, alookup_map_of_mem _ _ _ hmem]
  unfold normField
  by_cases hcol : col = "Sprint"
  · subst hcol
    simp [first_sprint_value_not_mem row header habs]
  · rw [if_neg hcol, read_csv_headers_map_lookup, firstIdx_eq_none header col habs]

/-- C1 witness: with a header naming none of the canonical fields,
Created maps to the empty string and the keys are the fixed schema. -/
theorem c1_witness :
    alookup (normalize_row ["v"] ["X"] (read_csv_headers_map ["X"]) date_columns)
      "Created" = some "" :=
  (c1_canonical_row_keys ["X"] ["v"]).2.2 "Created" (by decide) (by decide)

/-- C7: when the raw header contains a canonical field name, every
canonical field except Sprint takes its value from the first occurrence
of that name in the header, whatever the later same-named columns hold:
the header map records the first index, and normalize_row reads that
index. -/
theorem c7_first_occurrence_wins (pre post row : List String) (col : String)
    (h1 : col ∈ OUTPUT_COLUMNS) (h2 : col ≠ "Sprint") (h3 : ¬ col ∈ pre) :
    alookup (normalize_row row (pre ++ col :: post)
        (read_csv_headers_map (pre ++ col :: post)) date_columns) col =
      some (if date_columns.contains col then parse_date (row.getD pre.length "")
            else row.getD pre.length "") := by
  rw [normalize_row, alookup_map_of_mem _ _ _ h1]
  unfold normField
  rw [if_neg h2, read_csv_headers_map_lookup, firstIdx_append_cons _ _ _ h3]

/-- C7 witness: with header X, Summary, Summary and row a, b, c, the
Summary value is b, from the first Summary column. -/
theorem c7_witness :
    alookup (normalize_row ["a", "b", "c"] ["X", "Summary", "Summary"]
      (read_csv_headers_map ["X", "Summary", "Summary"]) date_columns) "Summary" =
      some "b" :=
  (c7_first_occurrence_wins ["X"] ["Summary"] ["a", "b", "c"] "Summary"
    (by decide) (by decide) (by decide)).trans (by decide)

lemma pyStripS_empty : pyStripS "" = "" := rfl

lemma first_sprint_aux_eq_spec (row : List String) :
    ∀ l : List (Nat × String), first_sprint_aux row l = sprintSpecTrimmed row l := by
  intro l
  induction l with
  | nil => rfl
  | cons p rest ih =>
    obtain ⟨i, name⟩ := p
    by_cases hname : name = "Sprint"
    · subst hname
      by_cases hi : i < row.length
      · by_cases hcell : List.getD row i "" = ""
        · rw [List.getD_eq_getElem _ _ hi] at hcell
          simp [first_sprint_aux, sprintSpecTrimmed, hi, hcell, pyStripS_empty, ih]
        · by_cases hval : pyStripS (List.getD row i "") = ""
          · rw [List.getD_eq_getElem _ _ hi] at hcell hval
            simp [first_sprint_aux, sprintSpecTrimmed, hi, hcell, hval, ih]
          · rw [List.getD_eq_getElem _ _ hi] at hcell hval
            simp [first_sprint_aux, sprintSpecTrimmed, hi, hcell, hval]
      · simp [first_sprint_aux, sprintSpecTrimmed, hi, ih]
    · simp [first_sprint_aux, sprintSpecTrimmed, hname, ih]

/-- C3 counterexample: with a single Sprint column holding a value with
surrounding whitespace, the canonical Sprint value is the stripped
value, not the raw value of that column as the claim states. -/
theorem c3_counterexample :
    alookup (normalize_row [" Sprint 4 "] ["Sprint"] (read_csv_headers_map ["Sprint"])
      date_columns) "Sprint" = some "Sprint 4" ∧
    sprintClaimRaw [" Sprint 4 "] (pyEnum 0 ["Sprint"]) = " Sprint 4 " ∧
    " Sprint 4 " ≠ "Sprint 4" := by decide

/-- C3 amended: for every raw record whose header contains at least one
column named Sprint, the canonical Sprint value is the stripped content
of the first column named Sprint, scanning left to right over all such
columns, whose stripped content is non-empty, and it is the empty
string when every such column is empty or whitespace-only. -/
theorem c3_sprint_first_nonempty_trimmed (header row : List String)
    (_hmem : "Sprint" ∈ header) :
    alookup (normalize_row row header (read_csv_headers_map header) date_columns)
      "Sprint" = some (sprintSpecTrimmed row (pyEnum 0 header)) := by
  rw [normalize_row, alookup_map_of_mem _ _ _ (by decide : "Sprint" ∈ OUTPUT_COLUMNS)]
  simp [normField, first_sprint_value, first_sprint_aux_eq_spec]

/-- C3 witness: three Sprint columns holding the empty string, Sprint 4
and Sprint 5 give the canonical value Sprint 4. -/
theorem c3_witness :
    alookup (normalize_row ["", "Sprint 4", "Sprint 5"] ["Sprint", "Sprint", "Sprint"]
      (read_csv_headers_map ["Sprint", "Sprint", "Sprint"]) date_columns) "Sprint" =
      some "Sprint 4" :=
  (c3_sprint_first_nonempty_trimmed ["Sprint", "Sprint", "Sprint"]
    ["", "Sprint 4", "Sprint 5"] (by decide)).trans (by decide)

/-- C9 counterexample: an input file that exists but is completely
empty makes the pass terminate with exit code 1 and no output, against
the claim that an existing input always gives exit code 0. -/
theorem c9_counterexample :
    (main_model (some ([] : List (List String)))).exitCode = 1 ∧
    (main_model (some ([] : List (List String)))).output = none ∧
    (some ([] : List (List String))) ≠ none := by decide

/-- C9 amended: the missing-input diagnostic with exit code 1 and no
output happens exactly when the input path does not exist; when the
input exists and contains at least a header line the pass writes the
normalized rows, prints the row count and exits 0; when the input
exists but is completely empty the uncaught StopIteration kills the
pass with exit code 1, no diagnostic and no output. -/
theorem c9_main_failure_semantics (input : Option (List (List String))) :
    ((input = none) ↔ ((main_model input).exitCode = 1 ∧
      (main_model input).output = none ∧
      (main_model input).missingDiagnostic = true)) ∧
    (∀ hd rs, input = some (hd :: rs) →
      (main_model input).exitCode = 0 ∧
      (main_model input).countMessage = some rs.length ∧
      (main_model input).output = some (rs.map fun r =>
        normalize_row (padRow r hd.length) hd (read_csv_headers_map hd) date_columns)) ∧
    (input = some [] →
      (main_model input).exitCode = 1 ∧ (main_model input).output = none ∧
      (main_model input).missingDiagnostic = false) := by
  rcases input with _ | l
  · refine ⟨by simp [main_model], ?_, ?_⟩
    · intro hd rs heq
      cases heq
    · intro heq
      cases heq
  · rcases l with _ | ⟨hd, rs⟩
    · refine ⟨by simp [main_model], ?_, by simp [main_model]⟩
      intro hd2 rs2 heq
      simp at heq
    · refine ⟨by simp [main_model], ?_, ?_⟩
      · intro hd2 rs2 heq
        rw [Option.some_inj] at heq
        injection heq with e1 e2
        subst e1
        subst e2
        simp [main_model]
      · intro heq
        simp at heq

/-- C9 witness: a header line with one record exits 0, reports one
written row and produces output. -/
theorem c9_witness :
    (main_model (some [["Summary"], ["x"]])).exitCode = 0 ∧
    (main_model (some [["Summary"], ["x"]])).countMessage = some 1 := by
  have hm := (c9_main_failure_semantics (some [["Summary"], ["x"]])).2.1
    ["Summary"] [["x"]] rfl
  exact ⟨hm.1, hm.2.1⟩

lemma tryFormats_first (fs : List (List Tok)) :
    ∀ (cs : List Char) (i : Nat) (dt : PyDateTime), i < fs.length →
    strptime (fs.getD i []) cs = some dt →
    (∀ j, j < i → strptime (fs.getD j []) cs = none) →
    tryFormats fs cs = some dt := by
  induction fs with
  | nil =>
    intro cs i dt hi
    exact absurd hi (by simp)
  | cons f rest ih =>
    intro cs i dt hi hsucc hfail
    cases i with
    | zero =>
      simp only [List.getD_cons_zero] at hsucc
      simp [tryFormats, hsucc]
    | succ i2 =>
      have hf : strptime f cs = none := by
        have := hfail 0 (Nat.succ_pos i2)
        simpa using this
      simp only [tryFormats, hf]
      refine ih cs i2 dt (by simpa using Nat.lt_of_succ_lt_succ hi) ?_ ?_
      · simpa using hsucc
      · intro j hj
        have := hfail (j + 1) (Nat.succ_lt_succ hj)
        simpa using this

/-- C2: parse_date tries the formats of DATE_FORMATS in the fixed
source order, and for every input whose stripped value is parsed by at
least one format, the result is the rendering of the datetime produced
by the earliest-listed format that parses it; later formats are not
consulted. -/
theorem c2_first_format_wins (v : String) (i : Nat) (dt : PyDateTime)
    (hi : i < DATE_FORMATS.length)
    (hsucc : strptime (DATE_FORMATS.getD i []) (pyStrip v.data) = some dt)
    (hfail : ∀ j, j < i → strptime (DATE_FORMATS.getD j []) (pyStrip v.data) = none) :
    parse_date v = strftimeFull dt := by
  have hne : pyStrip v.data ≠ [] := by
    intro h0
    rw [h0] at hsucc
    have hnil : ∀ fmt ∈ DATE_FORMATS, strptime fmt [] = none := by decide
    have hmem : DATE_FORMATS.getD i [] ∈ DATE_FORMATS := by
      rw [List.getD_eq_getElem _ _ hi]
      exact List.getElem_mem hi
    rw [hnil _ hmem] at hsucc
    cases hsucc
  simp only [parse_date]
  rw [if_neg hne, tryFormats_first DATE_FORMATS (pyStrip v.data) i dt hi hsucc hfail]

/-- C2 witness: the string 19/Dec/25 14:38 fails the first two formats
and is parsed by the third. -/
theorem c2_witness : parse_date "19/Dec/25 14:38" = "2025-12-19 14:38:00" :=
  (c2_first_format_wins "19/Dec/25 14:38" 2 ⟨2025, 12, 19, 14, 38, 0, 0⟩
    (by decide) (by decide) (by decide)).trans (by decide)

/-- C4 counterexample: on an input with surrounding whitespace on which
every parsing attempt fails, parse_date returns the stripped input, not
the original input unchanged. -/
theorem c4_counterexample :
    tryFormats DATE_FORMATS (pyStrip " not-a-date ".data) = none ∧
    strptime FALLBACK1 ((pyStrip " not-a-date ".data).take 19) = none ∧
    strptime FALLBACK2 ((pyStrip " not-a-date ".data).take 19) = none ∧
    parse_date " not-a-date " = "not-a-date" ∧
    " not-a-date " ≠ "not-a-date" := by decide

/-- C4 amended: for every input string on which every parsing attempt
fails (the fixed format list on the stripped value and the truncated
fallbacks), parse_date returns the STRIPPED input string; it never
raises, being a total function of the input. -/
theorem c4_fallback_identity_trimmed (v : String)
    (h1 : tryFormats DATE_FORMATS (pyStrip v.data) = none)
    (h2 : strptime FALLBACK1 ((pyStrip v.data).take 19) = none)
    (h3 : strptime FALLBACK2 ((pyStrip v.data).take 19) = none) :
    parse_date v = pyStripS v := by
  simp only [parse_date]
  by_cases h0 : pyStrip v.data = []
  · rw [if_pos h0]
    simp [pyStripS, h0]
  · rw [if_neg h0]
    simp only [h1, h2, h3]
    rfl

/-- C4 witness: the amended rule applied to a whitespace-padded
unparseable value. -/
theorem c4_witness : parse_date " not-a-date " = "not-a-date" :=
  (c4_fallback_identity_trimmed " not-a-date " (by decide) (by decide)
    (by decide)).trans (by decide)

/-- C5 counterexample: the original string contains a space and the
truncated fallback parse succeeds, yet the output is the date-only
rendering, because the code checks for a space in the STRIPPED value:
the stripped value separates date and time with a tab, which the
whitespace of the fallback format matches. -/
theorem c5_counterexample :
    tryFormats DATE_FORMATS (pyStrip " 2025-12-10\t11:44:34".data) = none ∧
    strptime FALLBACK1 ((pyStrip " 2025-12-10\t11:44:34".data).take 19) =
      some ⟨2025, 12, 10, 11, 44, 34, 0⟩ ∧
    " 2025-12-10\t11:44:34".data.contains ' ' = true ∧
    parse_date " 2025-12-10\t11:44:34" = "2025-12-10" ∧
    parse_date " 2025-12-10\t11:44:34" ≠
      strftimeFull ⟨2025, 12, 10, 11, 44, 34, 0⟩ := by decide

/-- C5 amended: for every non-empty input whose stripped value matches
none of the fixed formats, parse_date tries only the first 19
characters of the stripped value against the two fallback formats, and
when one of them succeeds the output uses the time-included rendering
exactly when the STRIPPED input contains a space character, and the
date-only rendering otherwise. -/
theorem c5_truncated_fallback (v : String) (dt : PyDateTime)
    (h1 : pyStrip v.data ≠ [])
    (h2 : tryFormats DATE_FORMATS (pyStrip v.data) = none)
    (h3 : (strptime FALLBACK1 ((pyStrip v.data).take 19)).or
          (strptime FALLBACK2 ((pyStrip v.data).take 19)) = some dt) :
    parse_date v = (if (pyStrip v.data).contains ' ' then strftimeFull dt
                    else strftimeDate dt) := by
  simp only [parse_date]
  rw [if_neg h1]
  simp only [h2]
  cases hf : strptime FALLBACK1 ((pyStrip v.data).take 19) with
  | some d1 =>
    rw [hf] at h3
    simp [Option.or] at h3
    subst h3
    simp only [hf]
  | none =>
    rw [hf] at h3
    simp [Option.or] at h3
    simp only [hf, h3]

/-- C5 witness: the amended rule applied to the tab-separated value. -/
theorem c5_witness : parse_date " 2025-12-10\t11:44:34" = "2025-12-10" :=
  (c5_truncated_fallback " 2025-12-10\t11:44:34" ⟨2025, 12, 10, 11, 44, 34, 0⟩
    (by decide) (by decide) (by decide)).trans (by decide)

lemma dropWhile_head_false {p : Char → Bool} :
    ∀ {l : List Char} {c : Char} {r : List Char},
    List.dropWhile p l = c :: r → p c = false := by
  intro l
  induction l with
  | nil =>
    intro c r h
    cases h
  | cons a t ih =>
    intro c r h
    rw [List.dropWhile_cons] at h
    by_cases hp : p a = true
    · rw [if_pos hp] at h
      exact ih h
    · rw [if_neg hp] at h
      cases h
      simpa using hp

lemma dropWhile_getLast? {p : Char → Bool} :
    ∀ l : List Char, List.dropWhile p l ≠ [] →
    (List.dropWhile p l).getLast? = l.getLast? := by
  intro l
  induction l with
  | nil => intro h; simp at h
  | cons a t ih =>
    intro h
    rw [List.dropWhile_cons]
    by_cases hp : p a = true
    · rw [List.dropWhile_cons, if_pos hp] at h
      rw [if_pos hp, ih h]
      cases t with
      | nil => simp [List.dropWhile] at h
      | cons b t2 => rw [List.getLast?_cons_cons]
    · rw [if_neg hp]

lemma pyStrip_head_false {cs : List Char} {c : Char} {r : List Char}
    (h : pyStrip cs = c :: r) : pyWs c = false := by
  unfold pyStrip at h
  have hhead : ((cs.dropWhile pyWs).reverse.dropWhile pyWs).reverse.head? = some c := by
    rw [h]
    rfl
  rw [List.head?_reverse] at hhead
  have hne : (cs.dropWhile pyWs).reverse.dropWhile pyWs ≠ [] := by
    intro h0
    rw [h0] at hhead
    cases hhead
  rw [dropWhile_getLast? _ hne, List.getLast?_reverse] at hhead
  cases hx : List.dropWhile pyWs cs with
  | nil =>
    rw [hx] at hhead
    cases hhead
  | cons d t =>
    rw [hx] at hhead
    have : d = c := by
      simpa using hhead
    subst this
    exact dropWhile_head_false hx

lemma pyStrip_last_false {cs : List Char} {c : Char}
    (h : (pyStrip cs).getLast? = some c) : pyWs c = false := by
  unfold pyStrip at h
  rw [List.getLast?_reverse] at h
  cases hx : List.dropWhile pyWs (cs.dropWhile pyWs).reverse with
  | nil =>
    rw [hx] at h
    cases h
  | cons d t =>
    rw [hx] at h
    have : d = c := by
      simpa using h
    subst this
    exact dropWhile_head_false hx

lemma pyStrip_noop (cs : List Char)
    (hh : ∀ c r, cs = c :: r → pyWs c = false)
    (hl : ∀ c, cs.getLast? = some c → pyWs c = false) : pyStrip cs = cs := by
  unfold pyStrip
  have h1 : cs.dropWhile pyWs = cs := by
    cases hc : cs with
    | nil => rfl
    | cons a t => rw [List.dropWhile_cons, if_neg (by simp [hh a t hc])]
  rw [h1]
  have h2 : cs.reverse.dropWhile pyWs = cs.reverse := by
    cases hr : cs.reverse with
    | nil => rfl
    | cons b t2 =>
      have hb : cs.getLast? = some b := by
        rw [← List.head?_reverse, hr]
        rfl
      rw [List.dropWhile_cons, if_neg (by simp [hl b hb])]
  rw [h2, List.reverse_reverse]

lemma pyStrip_idem (cs : List Char) : pyStrip (pyStrip cs) = pyStrip cs := by
  refine pyStrip_noop (pyStrip cs) ?_ ?_
  · intro c r h
    exact pyStrip_head_false h
  · intro c h
    exact pyStrip_last_false h

lemma pyStripS_idem (s : String) : pyStripS (pyStripS s) = pyStripS s := by
  simp only [pyStripS, pyStrip_idem]

lemma ofNat_mod10_isDigit (n : Nat) : (Char.ofNat (48 + n % 10)).isDigit = true := by
  have h10 : ∀ k, k < 10 → (Char.ofNat (48 + k)).isDigit = true := by decide
  exact h10 _ (Nat.mod_lt _ (by norm_num))

lemma strftimeFull_shape (dt : PyDateTime) : isCanonShape (strftimeFull dt) = true := by
  simp [strftimeFull, isCanonShape, pad4, pad2, ofNat_mod10_isDigit]

lemma strftimeDate_shape (dt : PyDateTime) : isDateOnlyShape (strftimeDate dt) = true := by
  simp [strftimeDate, isDateOnlyShape, pad4, pad2, ofNat_mod10_isDigit]

lemma parse_date_shapes (x : String) :
    parse_date x = "" ∨ isCanonShape (parse_date x) = true ∨
    isDateOnlyShape (parse_date x) = true ∨ parse_date x = pyStripS x := by
  simp only [parse_date]
  by_cases h0 : pyStrip x.data = []
  · rw [if_pos h0]
    left
    rfl
  · rw [if_neg h0]
    cases tryFormats DATE_FORMATS (pyStrip x.data) with
    | some dt =>
      right
      left
      exact strftimeFull_shape dt
    | none =>
      cases strptime FALLBACK1 ((pyStrip x.data).take 19) with
      | some dt =>
        by_cases hsp : ' ' ∈ pyStrip x.data
        · simp [hsp, strftimeFull_shape]
        · simp [hsp, strftimeDate_shape]
      | none =>
        cases strptime FALLBACK2 ((pyStrip x.data).take 19) with
        | some dt =>
          by_cases hsp : ' ' ∈ pyStrip x.data
          · simp [hsp, strftimeFull_shape]
          · simp [hsp, strftimeDate_shape]
        | none =>
          right
          right
          right
          rfl

/-- C6 counterexample: a Created value that parses under no format is
passed through verbatim by the normalizer, so a date-valued field can
hold a value that is neither empty nor in the canonical format. -/
theorem c6_counterexample :
    alookup (normalize_row ["not-a-date"] ["Created"] (read_csv_headers_map ["Created"])
      date_columns) "Created" = some "not-a-date" ∧
    "not-a-date" ≠ "" ∧ isCanonShape "not-a-date" = false := by decide

/-- C6 amended: in every row produced by the normalizer, each of the
five date-valued fields holds the empty string, a string in the
canonical format Y-m-d H:M:S, a date-only string Y-m-d produced by the
truncated fallback, or, when parsing fails, the stripped raw value
passed through (a string equal to its own stripped form). -/
theorem c6_date_field_shapes (header row : List String) (col : String) (v : String)
    (hdc : date_columns.contains col = true)
    (hv : alookup (normalize_row row header (read_csv_headers_map header) date_columns)
      col = some v) :
    v = "" ∨ isCanonShape v = true ∨ isDateOnlyShape v = true ∨ pyStripS v = v := by
  have hmem : col ∈ date_columns := by
    simpa using hdc
  have hout : col ∈ OUTPUT_COLUMNS ∧ col ≠ "Sprint" := by
    simp only [date_columns, List.mem_cons, List.not_mem_nil, or_false] at hmem
    rcases hmem with rfl | rfl | rfl | rfl | rfl <;> exact ⟨by decide, by decide⟩
  rw [normalize_row, alookup_map_of_mem _ _ _ hout.1, Option.some_inj] at hv
  rw [normField, if_neg hout.2] at hv
  cases hidx : alookup (read_csv_headers_map header) col with
  | none =>
    rw [hidx] at hv
    left
    exact hv.symm
  | some idx =>
    rw [hidx] at hv
    simp only [if_pos hdc] at hv
    rcases parse_date_shapes (row.getD idx "") with hc | hc | hc | hc
    · left
      rw [← hv]
      exact hc
    · right
      left
      rw [← hv]
      exact hc
    · right
      right
      left
      rw [← hv]
      exact hc
    · right
      right
      right
      rw [← hv, hc, pyStripS_idem]

/-- C6 witness: the amended disjunction at the pass-through value. -/
theorem c6_witness :
    "not-a-date" = "" ∨ isCanonShape "not-a-date" = true ∨
    isDateOnlyShape "not-a-date" = true ∨ pyStripS "not-a-date" = "not-a-date" :=
  c6_date_field_shapes ["Created"] ["not-a-date"] "Created" "not-a-date"
    (by decide) (by decide)

lemma findSome?_eq_some_imp {α β : Type} {l : List α} {f : α → Option β} {b : β}
    (h : l.findSome? f = some b) : ∃ a ∈ l, f a = some b := by
  induction l with
  | nil => simp [List.findSome?_nil] at h
  | cons x xs ih =>
    rw [List.findSome?_cons] at h
    cases hf : f x with
    | some c =>
      rw [hf] at h
      refine ⟨x, List.mem_cons_self _ _, ?_⟩
      rw [hf]
      exact h
    | none =>
      rw [hf] at h
      obtain ⟨a, ha, hfa⟩ := ih h
      exact ⟨a, List.mem_cons_of_mem _ ha, hfa⟩

/-- Upper bound on the number of characters one token can consume; the
whitespace token is unbounded and excluded where this is used. -/
def tokLen : Tok → Nat
  | .lit _ => 1
  | .ws => 0
  | .Y2 => 2
  | .Y4 => 4
  | .Frac => 6
  | .Mon => 3
  | .M => 2
  | .D => 2
  | .H24 => 2
  | .H12 => 2
  | .Mi => 2
  | .Sec => 2
  | .AmPm => 2

/-- Sum of the per-token bounds. -/
def maxLenToks : List Tok → Nat
  | [] => 0
  | t :: ts => tokLen t + maxLenToks ts

lemma numAlts_shape {twoTest : Char → Char → Bool} {oneTest : Char → Bool}
    {cs : List Char} {v : Nat} {rest : List Char}
    (h : (v, rest) ∈ numAlts twoTest oneTest cs) :
    ∃ k, rest = cs.drop k ∧ 1 ≤ k ∧ k ≤ 2 := by
  match cs with
  | [] => simp [numAlts] at h
  | [c1] =>
    simp only [numAlts] at h
    by_cases h1 : oneTest c1 = true
    · rw [if_pos h1] at h
      simp only [List.mem_singleton, Prod.mk.injEq] at h
      exact ⟨1, by simp [h.2], by omega, by omega⟩
    · rw [if_neg h1] at h
      simp at h
  | c1 :: c2 :: r =>
    simp only [numAlts] at h
    rw [List.mem_append] at h
    rcases h with h | h
    · by_cases h2 : twoTest c1 c2 = true
      · rw [if_pos h2] at h
        simp only [List.mem_singleton, Prod.mk.injEq] at h
        exact ⟨2, by simp [h.2], by omega, by omega⟩
      · rw [if_neg h2] at h
        simp at h
    · by_cases h1 : oneTest c1 = true
      · rw [if_pos h1] at h
        simp only [List.mem_singleton, Prod.mk.injEq] at h
        exact ⟨1, by simp [h.2], by omega, by omega⟩
      · rw [if_neg h1] at h
        simp at h

lemma alts_shape {t : Tok} {cs : List Char} {v : Nat} {rest : List Char}
    (h : (v, rest) ∈ alts t cs) :
    ∃ k, rest = cs.drop k ∧ (t ≠ Tok.ws → k ≤ tokLen t) ∧ 1 ≤ k := by
  cases t with
  | lit ch =>
    match cs with
    | [] => simp [alts] at h
    | c :: r =>
      simp only [alts] at h
      by_cases hc : c = ch
      · rw [if_pos hc] at h
        simp only [List.mem_singleton, Prod.mk.injEq] at h
        exact ⟨1, by simp [h.2], fun _ => by simp [tokLen], by omega⟩
      · rw [if_neg hc] at h
        simp at h
  | ws =>
    simp only [alts, List.mem_map, List.mem_range] at h
    obtain ⟨t2, ht2, heq⟩ := h
    refine ⟨leadWs cs - t2, ?_, fun hn => absurd rfl hn, by omega⟩
    exact (congrArg Prod.snd heq).symm
  | Y4 =>
    match cs with
    | c1 :: c2 :: c3 :: c4 :: r =>
      simp only [alts] at h
      by_cases hd : (c1.isDigit && c2.isDigit && c3.isDigit && c4.isDigit) = true
      · rw [if_pos hd] at h
        simp only [List.mem_singleton, Prod.mk.injEq] at h
        exact ⟨4, by simp [h.2], fun _ => by simp [tokLen], by omega⟩
      · rw [if_neg hd] at h
        simp at h
    | [] => simp [alts] at h
    | [c1] => simp [alts] at h
    | [c1, c2] => simp [alts] at h
    | [c1, c2, c3] => simp [alts] at h
  | Y2 =>
    match cs with
    | c1 :: c2 :: r =>
      simp only [alts] at h
      by_cases hd : (c1.isDigit && c2.isDigit) = true
      · rw [if_pos hd] at h
        simp only [List.mem_singleton, Prod.mk.injEq] at h
        exact ⟨2, by simp [h.2], fun _ => by simp [tokLen], by omega⟩
      · rw [if_neg hd] at h
        simp at h
    | [] => simp [alts] at h
    | [c1] => simp [alts] at h
  | M =>
    obtain ⟨k, hk, h1, h2⟩ := numAlts_shape h
    exact ⟨k, hk, fun _ => by simp [tokLen]; omega, h1⟩
  | D =>
    obtain ⟨k, hk, h1, h2⟩ := numAlts_shape h
    exact ⟨k, hk, fun _ => by simp [tokLen]; omega, h1⟩
  | H24 =>
    obtain ⟨k, hk, h1, h2⟩ := numAlts_shape h
    exact ⟨k, hk, fun _ => by simp [tokLen]; omega, h1⟩
  | H12 =>
    obtain ⟨k, hk, h1, h2⟩ := numAlts_shape h
    exact ⟨k, hk, fun _ => by simp [tokLen]; omega, h1⟩
  | Mi =>
    obtain ⟨k, hk, h1, h2⟩ := numAlts_shape h
    exact ⟨k, hk, fun _ => by simp [tokLen]; omega, h1⟩
  | Sec =>
    obtain ⟨k, hk, h1, h2⟩ := numAlts_shape h
    exact ⟨k, hk, fun _ => by simp [tokLen]; omega, h1⟩
  | Frac =>
    simp only [alts, List.mem_map, List.mem_range] at h
    obtain ⟨t2, ht2, heq⟩ := h
    refine ⟨min (leadDigits cs) 6 - t2, ?_, fun _ => ?_, by omega⟩
    · exact (congrArg Prod.snd heq).symm
    · simp only [tokLen]
      omega
  | AmPm =>
    match cs with
    | c1 :: c2 :: r =>
      simp only [alts] at h
      by_cases ha : (c1.toLower = 'a' && c2.toLower = 'm') = true
      · rw [if_pos ha] at h
        simp only [List.mem_singleton, Prod.mk.injEq] at h
        exact ⟨2, by simp [h.2], fun _ => by simp [tokLen], by omega⟩
      · rw [if_neg ha] at h
        by_cases hp : (c1.toLower = 'p' && c2.toLower = 'm') = true
        · rw [if_pos hp] at h
          simp only [List.mem_singleton, Prod.mk.injEq] at h
          exact ⟨2, by simp [h.2], fun _ => by simp [tokLen], by omega⟩
        · rw [if_neg hp] at h
          simp at h
    | [] => simp [alts] at h
    | [c1] => simp [alts] at h
  | Mon =>
    match cs with
    | c1 :: c2 :: c3 :: r =>
      simp only [alts] at h
      cases hm : monthNum c1 c2 c3 with
      | some mv =>
        rw [hm] at h
        simp only [List.mem_singleton, Prod.mk.injEq] at h
        exact ⟨3, by simp [h.2], fun _ => by simp [tokLen], by omega⟩
      | none =>
        rw [hm] at h
        simp at h
    | [] => simp [alts] at h
    | [c1] => simp [alts] at h
    | [c1, c2] => simp [alts] at h

lemma runToks_lit_mem {ch : Char} :
    ∀ (toks : List Tok) (cs : List Char) (e e2 : PEnv),
    runToks toks cs e = some e2 → Tok.lit ch ∈ toks → ch ∈ cs := by
  intro toks
  induction toks with
  | nil =>
    intro cs e e2 h hmem
    simp at hmem
  | cons t ts ih =>
    intro cs e e2 h hmem
    simp only [runToks] at h
    obtain ⟨⟨v, rest⟩, hmem2, hf⟩ := findSome?_eq_some_imp h
    rcases List.mem_cons.mp hmem with heq | hmem3
    · subst heq
      match cs, hmem2 with
      | c :: r, hmem2 =>
        simp only [alts] at hmem2
        by_cases hc : c = ch
        · subst hc
          exact List.mem_cons_self _ _
        · rw [if_neg hc] at hmem2
          simp at hmem2
    · obtain ⟨k, hk, _, _⟩ := alts_shape hmem2
      have hin : ch ∈ rest := ih rest _ _ hf hmem3
      rw [hk] at hin
      exact (List.drop_sublist k cs).mem hin

lemma runToks_len :
    ∀ (toks : List Tok) (cs : List Char) (e e2 : PEnv),
    (∀ t ∈ toks, t ≠ Tok.ws) → runToks toks cs e = some e2 →
    cs.length ≤ maxLenToks toks := by
  intro toks
  induction toks with
  | nil =>
    intro cs e e2 _ h
    cases cs with
    | nil => simp [maxLenToks]
    | cons c r => simp [runToks] at h
  | cons t ts ih =>
    intro cs e e2 hws h
    simp only [runToks] at h
    obtain ⟨⟨v, rest⟩, hmem, hf⟩ := findSome?_eq_some_imp h
    obtain ⟨k, hk, hbound, hone⟩ := alts_shape hmem
    have hlen : rest.length ≤ maxLenToks ts :=
      ih rest _ _ (fun t2 ht2 => hws t2 (List.mem_cons_of_mem _ ht2)) hf
    have hkb : k ≤ tokLen t := hbound (hws t (List.mem_cons_self _ _))
    have hdrop : rest.length = cs.length - k := by
      rw [hk, List.length_drop]
    simp only [maxLenToks]
    omega

lemma strptime_none_of_lit {ch : Char} {fmt : List Tok} {cs : List Char}
    (hmem : Tok.lit ch ∈ fmt) (hnot : ¬ ch ∈ cs) : strptime fmt cs = none := by
  unfold strptime
  cases hr : runToks fmt cs {} with
  | none => rfl
  | some e2 => exact absurd (runToks_lit_mem fmt cs _ _ hr hmem) hnot

lemma strptime_none_of_long {fmt : List Tok} {cs : List Char}
    (hws : ∀ t ∈ fmt, t ≠ Tok.ws) (hlen : maxLenToks fmt < cs.length) :
    strptime fmt cs = none := by
  unfold strptime
  cases hr : runToks fmt cs {} with
  | none => rfl
  | some e2 =>
    have := runToks_len fmt cs _ _ hws hr
    omega

lemma findSome?_num_two {twoTest : Char → Char → Bool} {oneTest : Char → Bool}
    {c1 c2 : Char} {r : List Char} {f : Nat × List Char → Option PEnv}
    (h2 : twoTest c1 c2 = true) (h1 : f (dv c1, c2 :: r) = none) :
    (numAlts twoTest oneTest (c1 :: c2 :: r)).findSome? f = f (10 * dv c1 + dv c2, r) := by
  simp only [numAlts, if_pos h2]
  by_cases ho : oneTest c1 = true
  · rw [if_pos ho]
    cases hf : f (10 * dv c1 + dv c2, r) <;>
      simp [List.findSome?_cons, hf, h1]
  · rw [if_neg ho]
    cases hf : f (10 * dv c1 + dv c2, r) <;>
      simp [List.findSome?_cons, hf]

lemma findSome?_num_none {twoTest : Char → Char → Bool} {oneTest : Char → Bool}
    {c1 c2 : Char} {r : List Char} {f : Nat × List Char → Option PEnv}
    (h2 : twoTest c1 c2 = false) (h1 : f (dv c1, c2 :: r) = none) :
    (numAlts twoTest oneTest (c1 :: c2 :: r)).findSome? f = none := by
  simp only [numAlts, if_neg (by simp [h2] : ¬ twoTest c1 c2 = true), List.nil_append]
  by_cases ho : oneTest c1 = true
  · rw [if_pos ho]
    simp [List.findSome?_cons, h1]
  · rw [if_neg ho]
    simp [List.findSome?_nil]

lemma step_lit (ch : Char) (ts : List Tok) (rest : List Char) (e : PEnv) :
    runToks (.lit ch :: ts) (ch :: rest) e = runToks ts rest e := by
  simp [runToks, alts, update, List.findSome?_cons]
  cases hf : runToks ts rest e <;> simp [hf]

lemma fail_lit {ch c : Char} (ts : List Tok) (rest : List Char) (e : PEnv)
    (h : c ≠ ch) : runToks (.lit ch :: ts) (c :: rest) e = none := by
  simp [runToks, alts, h, List.findSome?_nil]

lemma step_ws (ts : List Tok) (c : Char) (rest : List Char) (e : PEnv)
    (h : pyWs c = false) :
    runToks (.ws :: ts) (' ' :: c :: rest) e = runToks ts (c :: rest) e := by
  have hsp : pyWs ' ' = true := rfl
  have hlw : leadWs (' ' :: c :: rest) = 1 := by
    simp [leadWs, h, hsp]
  simp only [runToks, alts, hlw]
  have hr1 : List.range 1 = [0] := rfl
  rw [hr1]
  simp only [List.map_cons, List.map_nil, List.findSome?_cons, List.findSome?_nil]
  have hd : List.drop (1 - 0) (' ' :: c :: rest) = c :: rest := rfl
  have hu : update Tok.ws 0 e = e := rfl
  rw [hd, hu]
  cases runToks ts (c :: rest) e <;> rfl

lemma fail_ws {c : Char} (ts : List Tok) (rest : List Char) (e : PEnv)
    (h : pyWs c = false) : runToks (.ws :: ts) (c :: rest) e = none := by
  have hlw : leadWs (c :: rest) = 0 := by
    simp [leadWs, h]
  simp [runToks, alts, hlw, List.findSome?_nil]

lemma step_Y4 (ts : List Tok) (c1 c2 c3 c4 : Char) (rest : List Char) (e : PEnv)
    (h : (c1.isDigit && c2.isDigit && c3.isDigit && c4.isDigit) = true) :
    runToks (.Y4 :: ts) (c1 :: c2 :: c3 :: c4 :: rest) e =
      runToks ts rest (update .Y4 (((dv c1 * 10 + dv c2) * 10 + dv c3) * 10 + dv c4) e) := by
  simp only [runToks, alts, if_pos h]
  cases hf : runToks ts rest (update .Y4 (((dv c1 * 10 + dv c2) * 10 + dv c3) * 10 + dv c4) e) <;>
    simp [List.findSome?_cons, hf]

lemma step_num {tok : Tok} {twoTest : Char → Char → Bool} {oneTest : Char → Bool}
    (halts : ∀ cs, alts tok cs = numAlts twoTest oneTest cs)
    (ts : List Tok) (c1 c2 : Char) (rest : List Char) (e : PEnv)
    (h2 : twoTest c1 c2 = true)
    (hfail : runToks ts (c2 :: rest) (update tok (dv c1) e) = none) :
    runToks (tok :: ts) (c1 :: c2 :: rest) e =
      runToks ts rest (update tok (10 * dv c1 + dv c2) e) := by
  simp only [runToks, halts]
  exact findSome?_num_two h2 hfail

lemma fail_num {tok : Tok} {twoTest : Char → Char → Bool} {oneTest : Char → Bool}
    (halts : ∀ cs, alts tok cs = numAlts twoTest oneTest cs)
    (ts : List Tok) (c1 c2 : Char) (rest : List Char) (e : PEnv)
    (h2 : twoTest c1 c2 = false)
    (hfail : runToks ts (c2 :: rest) (update tok (dv c1) e) = none) :
    runToks (tok :: ts) (c1 :: c2 :: rest) e = none := by
  simp only [runToks, halts]
  exact findSome?_num_none h2 hfail

lemma digit_repr {c : Char} (h : c.isDigit = true) :
    ∃ n, n < 10 ∧ c = Char.ofNat (48 + n) := by
  have hb : 48 ≤ c.toNat ∧ c.toNat ≤ 57 := by
    simp only [Char.isDigit, Bool.and_eq_true, decide_eq_true_eq] at h
    exact ⟨UInt32.le_toNat_of_le (by norm_num) h.1,
      UInt32.toNat_le_of_le (by norm_num) h.2⟩
  refine ⟨c.toNat - 48, by omega, ?_⟩
  have he : 48 + (c.toNat - 48) = c.toNat := by omega
  rw [he, Char.ofNat_toNat]

lemma digc_isDigit : ∀ n < 10, (Char.ofNat (48 + n)).isDigit = true := by decide

lemma digc_dv : ∀ n < 10, dv (Char.ofNat (48 + n)) = n := by decide

lemma digc_ne : ∀ n < 10, Char.ofNat (48 + n) ≠ '-' ∧ Char.ofNat (48 + n) ≠ ':' ∧
    Char.ofNat (48 + n) ≠ ' ' ∧ Char.ofNat (48 + n) ≠ '/' ∧
    Char.ofNat (48 + n) ≠ '.' ∧ pyWs (Char.ofNat (48 + n)) = false := by decide

lemma mTwo_iff : ∀ a < 10, ∀ b < 10,
    (mTwo (Char.ofNat (48 + a)) (Char.ofNat (48 + b)) = true ↔
      (1 ≤ 10 * a + b ∧ 10 * a + b ≤ 12)) := by decide

lemma dTwo_iff : ∀ a < 10, ∀ b < 10,
    (dTwo (Char.ofNat (48 + a)) (Char.ofNat (48 + b)) = true ↔
      (1 ≤ 10 * a + b ∧ 10 * a + b ≤ 31)) := by decide

lemma hTwo_iff : ∀ a < 10, ∀ b < 10,
    (hTwo (Char.ofNat (48 + a)) (Char.ofNat (48 + b)) = true ↔ 10 * a + b ≤ 23) := by decide

lemma miTwo_iff : ∀ a < 10, ∀ b < 10,
    (miTwo (Char.ofNat (48 + a)) (Char.ofNat (48 + b)) = true ↔ 10 * a + b ≤ 59) := by decide

lemma secTwo_iff : ∀ a < 10, ∀ b < 10,
    (secTwo (Char.ofNat (48 + a)) (Char.ofNat (48 + b)) = true ↔ 10 * a + b ≤ 61) := by decide

lemma pad2_digits {a b : Nat} (ha : a < 10) (hb : b < 10) :
    pad2 (10 * a + b) = [Char.ofNat (48 + a), Char.ofNat (48 + b)] := by
  unfold pad2
  have h1 : (10 * a + b) / 10 % 10 = a := by omega
  have h2 : (10 * a + b) % 10 = b := by omega
  rw [h1, h2]

lemma pad4_digits {a b c d : Nat} (ha : a < 10) (hb : b < 10) (hc : c < 10)
    (hd : d < 10) :
    pad4 (((a * 10 + b) * 10 + c) * 10 + d) =
      [Char.ofNat (48 + a), Char.ofNat (48 + b), Char.ofNat (48 + c),
       Char.ofNat (48 + d)] := by
  unfold pad4
  have h1 : (((a * 10 + b) * 10 + c) * 10 + d) / 1000 % 10 = a := by omega
  have h2 : (((a * 10 + b) * 10 + c) * 10 + d) / 100 % 10 = b := by omega
  have h3 : (((a * 10 + b) * 10 + c) * 10 + d) / 10 % 10 = c := by omega
  have h4 : (((a * 10 + b) * 10 + c) * 10 + d) % 10 = d := by omega
  rw [h1, h2, h3, h4]

lemma parse_date_id_of_fail {cs : List Char} (h0 : ¬ cs = [])
    (hstrip : pyStrip cs = cs)
    (h1 : tryFormats DATE_FORMATS cs = none)
    (h2 : strptime FALLBACK1 (cs.take 19) = none)
    (h3 : strptime FALLBACK2 (cs.take 19) = none) :
    parse_date (String.mk cs) = String.mk cs := by
  have hdata : (String.mk cs).data = cs := rfl
  simp only [parse_date, hdata, hstrip, if_neg h0, h1, h2, h3]

lemma parse_date_full_of_fb1 {cs : List Char} {dt : PyDateTime} (h0 : ¬ cs = [])
    (hstrip : pyStrip cs = cs)
    (h1 : tryFormats DATE_FORMATS cs = none)
    (h2 : strptime FALLBACK1 (cs.take 19) = some dt)
    (hsp : cs.contains ' ' = true) :
    parse_date (String.mk cs) = strftimeFull dt := by
  have hdata : (String.mk cs).data = cs := rfl
  simp only [parse_date, hdata, hstrip, if_neg h0, h1, h2, hsp, if_true]

/-- An exhausted format with input left over does not match. -/
lemma runToks_nil_cons (c : Char) (rest : List Char) (e : PEnv) :
    runToks [] (c :: rest) e = none := rfl

/-- buildDateTime on the record collected by the fallback format. -/
lemma buildDateTime_full (Yv Mv Dv Hv Miv Sv : Nat) :
    buildDateTime (update Tok.Sec Sv (update Tok.Mi Miv (update Tok.H24 Hv
      (update Tok.D Dv (update Tok.M Mv (update Tok.Y4 Yv {})))))) =
      (if 1 ≤ Yv ∧ Yv ≤ 9999 ∧ 1 ≤ Mv ∧ Mv ≤ 12 ∧ 1 ≤ Dv ∧
          Dv ≤ daysInMonth Yv Mv ∧ Hv ≤ 23 ∧ Miv ≤ 59 ∧ Sv ≤ 59 ∧ (0 : Nat) ≤ 999999 then
        some ⟨Yv, Mv, Dv, Hv, Miv, Sv, 0⟩
      else none) := by
  simp only [update, buildDateTime, Option.getD_some, Option.getD_none]

/-- C8: every string already in the canonical format Y-m-d H:M:S is
returned by parse_date unchanged: no format of DATE_FORMATS matches the
shape, so the truncated fallback sees the whole string; when the
component values form a real date the fallback parse succeeds and the
rendering reproduces the input digit for digit, and when a component is
out of range every parse fails and the stripped input, equal to the
input itself, is returned. -/
theorem c8_canonical_roundtrip (s : String) (h : isCanonShape s = true) :
    parse_date s = s := by
  obtain ⟨cs⟩ := s
  simp only [isCanonShape] at h
  split at h
  next cv1 cv2 cv3 cv4 sp1 cv5 cv6 sp2 cv7 cv8 spc cv9 cv10 co1 cv11 cv12 co2 cv13 cv14 =>
    simp only [Bool.and_eq_true, decide_eq_true_eq] at h
    obtain ⟨⟨⟨⟨⟨⟨⟨⟨⟨⟨⟨⟨⟨⟨⟨⟨⟨⟨hdg1, hdg2⟩, hdg3⟩, hdg4⟩, hsep1⟩, hdg5⟩, hdg6⟩, hsep2⟩, hdg7⟩, hdg8⟩, hspc⟩, hdg9⟩, hdg10⟩, hcol1⟩, hdg11⟩, hdg12⟩, hcol2⟩, hdg13⟩, hdg14⟩ := h
    subst hsep1
    subst hsep2
    subst hspc
    subst hcol1
    subst hcol2
    obtain ⟨n1, hb1, hq1⟩ := digit_repr hdg1
    subst hq1
    obtain ⟨n2, hb2, hq2⟩ := digit_repr hdg2
    subst hq2
    obtain ⟨n3, hb3, hq3⟩ := digit_repr hdg3
    subst hq3
    obtain ⟨n4, hb4, hq4⟩ := digit_repr hdg4
    subst hq4
    obtain ⟨n5, hb5, hq5⟩ := digit_repr hdg5
    subst hq5
    obtain ⟨n6, hb6, hq6⟩ := digit_repr hdg6
    subst hq6
    obtain ⟨n7, hb7, hq7⟩ := digit_repr hdg7
    subst hq7
    obtain ⟨n8, hb8, hq8⟩ := digit_repr hdg8
    subst hq8
    obtain ⟨n9, hb9, hq9⟩ := digit_repr hdg9
    subst hq9
    obtain ⟨n10, hb10, hq10⟩ := digit_repr hdg10
    subst hq10
    obtain ⟨n11, hb11, hq11⟩ := digit_repr hdg11
    subst hq11
    obtain ⟨n12, hb12, hq12⟩ := digit_repr hdg12
    subst hq12
    obtain ⟨n13, hb13, hq13⟩ := digit_repr hdg13
    subst hq13
    obtain ⟨n14, hb14, hq14⟩ := digit_repr hdg14
    subst hq14
    have hdv1 : dv (Char.ofNat (48 + n1)) = n1 := digc_dv n1 hb1
    have hdv2 : dv (Char.ofNat (48 + n2)) = n2 := digc_dv n2 hb2
    have hdv3 : dv (Char.ofNat (48 + n3)) = n3 := digc_dv n3 hb3
    have hdv4 : dv (Char.ofNat (48 + n4)) = n4 := digc_dv n4 hb4
    have hdv5 : dv (Char.ofNat (48 + n5)) = n5 := digc_dv n5 hb5
    have hdv6 : dv (Char.ofNat (48 + n6)) = n6 := digc_dv n6 hb6
    have hdv7 : dv (Char.ofNat (48 + n7)) = n7 := digc_dv n7 hb7
    have hdv8 : dv (Char.ofNat (48 + n8)) = n8 := digc_dv n8 hb8
    have hdv9 : dv (Char.ofNat (48 + n9)) = n9 := digc_dv n9 hb9
    have hdv10 : dv (Char.ofNat (48 + n10)) = n10 := digc_dv n10 hb10
    have hdv11 : dv (Char.ofNat (48 + n11)) = n11 := digc_dv n11 hb11
    have hdv12 : dv (Char.ofNat (48 + n12)) = n12 := digc_dv n12 hb12
    have hdv13 : dv (Char.ofNat (48 + n13)) = n13 := digc_dv n13 hb13
    have hdv14 : dv (Char.ofNat (48 + n14)) = n14 := digc_dv n14 hb14
    have hne1 := digc_ne n1 hb1
    have hne2 := digc_ne n2 hb2
    have hne3 := digc_ne n3 hb3
    have hne4 := digc_ne n4 hb4
    have hne5 := digc_ne n5 hb5
    have hne6 := digc_ne n6 hb6
    have hne7 := digc_ne n7 hb7
    have hne8 := digc_ne n8 hb8
    have hne9 := digc_ne n9 hb9
    have hne10 := digc_ne n10 hb10
    have hne11 := digc_ne n11 hb11
    have hne12 := digc_ne n12 hb12
    have hne13 := digc_ne n13 hb13
    have hne14 := digc_ne n14 hb14
    have hne : ¬ ([Char.ofNat (48 + n1), Char.ofNat (48 + n2), Char.ofNat (48 + n3), Char.ofNat (48 + n4), '-', Char.ofNat (48 + n5), Char.ofNat (48 + n6), '-', Char.ofNat (48 + n7), Char.ofNat (48 + n8), ' ', Char.ofNat (48 + n9), Char.ofNat (48 + n10), ':', Char.ofNat (48 + n11), Char.ofNat (48 + n12), ':', Char.ofNat (48 + n13), Char.ofNat (48 + n14)] : List Char) = [] := by simp
    have hstrip : pyStrip ([Char.ofNat (48 + n1), Char.ofNat (48 + n2), Char.ofNat (48 + n3), Char.ofNat (48 + n4), '-', Char.ofNat (48 + n5), Char.ofNat (48 + n6), '-', Char.ofNat (48 + n7), Char.ofNat (48 + n8), ' ', Char.ofNat (48 + n9), Char.ofNat (48 + n10), ':', Char.ofNat (48 + n11), Char.ofNat (48 + n12), ':', Char.ofNat (48 + n13), Char.ofNat (48 + n14)] : List Char) = [Char.ofNat (48 + n1), Char.ofNat (48 + n2), Char.ofNat (48 + n3), Char.ofNat (48 + n4), '-', Char.ofNat (48 + n5), Char.ofNat (48 + n6), '-', Char.ofNat (48 + n7), Char.ofNat (48 + n8), ' ', Char.ofNat (48 + n9), Char.ofNat (48 + n10), ':', Char.ofNat (48 + n11), Char.ofNat (48 + n12), ':', Char.ofNat (48 + n13), Char.ofNat (48 + n14)] := by
      refine pyStrip_noop _ ?_ ?_
      · intro c r hcr
        injection hcr with hc1 hrest
        rw [← hc1]
        exact hne1.2.2.2.2.2
      · intro c hcl
        have hlast : ([Char.ofNat (48 + n1), Char.ofNat (48 + n2), Char.ofNat (48 + n3), Char.ofNat (48 + n4), '-', Char.ofNat (48 + n5), Char.ofNat (48 + n6), '-', Char.ofNat (48 + n7), Char.ofNat (48 + n8), ' ', Char.ofNat (48 + n9), Char.ofNat (48 + n10), ':', Char.ofNat (48 + n11), Char.ofNat (48 + n12), ':', Char.ofNat (48 + n13), Char.ofNat (48 + n14)] : List Char).getLast? = some (Char.ofNat (48 + n14)) := rfl
        rw [hlast] at hcl
        injection hcl with hc
        rw [← hc]
        exact hne14.2.2.2.2.2
    have hdigmem : ∀ c ∈ ([Char.ofNat (48 + n1), Char.ofNat (48 + n2), Char.ofNat (48 + n3), Char.ofNat (48 + n4), '-', Char.ofNat (48 + n5), Char.ofNat (48 + n6), '-', Char.ofNat (48 + n7), Char.ofNat (48 + n8), ' ', Char.ofNat (48 + n9), Char.ofNat (48 + n10), ':', Char.ofNat (48 + n11), Char.ofNat (48 + n12), ':', Char.ofNat (48 + n13), Char.ofNat (48 + n14)] : List Char),
        c = '-' ∨ c = ' ' ∨ c = ':' ∨ c.isDigit = true := by
      intro c hc
      simp only [List.mem_cons, List.not_mem_nil, or_false] at hc
      rcases hc with rfl | rfl | rfl | rfl | rfl | rfl | rfl | rfl | rfl | rfl | rfl |
        rfl | rfl | rfl | rfl | rfl | rfl | rfl | rfl <;>
        first
        | exact Or.inl rfl
        | exact Or.inr (Or.inl rfl)
        | exact Or.inr (Or.inr (Or.inl rfl))
        | exact Or.inr (Or.inr (Or.inr (digc_isDigit _ (by assumption))))
    have hslash : ¬ ('/' : Char) ∈ ([Char.ofNat (48 + n1), Char.ofNat (48 + n2), Char.ofNat (48 + n3), Char.ofNat (48 + n4), '-', Char.ofNat (48 + n5), Char.ofNat (48 + n6), '-', Char.ofNat (48 + n7), Char.ofNat (48 + n8), ' ', Char.ofNat (48 + n9), Char.ofNat (48 + n10), ':', Char.ofNat (48 + n11), Char.ofNat (48 + n12), ':', Char.ofNat (48 + n13), Char.ofNat (48 + n14)] : List Char) := by
      intro hm
      rcases hdigmem _ hm with hq | hq | hq | hq <;> exact absurd hq (by decide)
    have hdot : ¬ ('.' : Char) ∈ ([Char.ofNat (48 + n1), Char.ofNat (48 + n2), Char.ofNat (48 + n3), Char.ofNat (48 + n4), '-', Char.ofNat (48 + n5), Char.ofNat (48 + n6), '-', Char.ofNat (48 + n7), Char.ofNat (48 + n8), ' ', Char.ofNat (48 + n9), Char.ofNat (48 + n10), ':', Char.ofNat (48 + n11), Char.ofNat (48 + n12), ':', Char.ofNat (48 + n13), Char.ofNat (48 + n14)] : List Char) := by
      intro hm
      rcases hdigmem _ hm with hq | hq | hq | hq <;> exact absurd hq (by decide)
    have hlen19 : ([Char.ofNat (48 + n1), Char.ofNat (48 + n2), Char.ofNat (48 + n3), Char.ofNat (48 + n4), '-', Char.ofNat (48 + n5), Char.ofNat (48 + n6), '-', Char.ofNat (48 + n7), Char.ofNat (48 + n8), ' ', Char.ofNat (48 + n9), Char.ofNat (48 + n10), ':', Char.ofNat (48 + n11), Char.ofNat (48 + n12), ':', Char.ofNat (48 + n13), Char.ofNat (48 + n14)] : List Char).length = 19 := rfl
    have hf1 : strptime fmt1 [Char.ofNat (48 + n1), Char.ofNat (48 + n2), Char.ofNat (48 + n3), Char.ofNat (48 + n4), '-', Char.ofNat (48 + n5), Char.ofNat (48 + n6), '-', Char.ofNat (48 + n7), Char.ofNat (48 + n8), ' ', Char.ofNat (48 + n9), Char.ofNat (48 + n10), ':', Char.ofNat (48 + n11), Char.ofNat (48 + n12), ':', Char.ofNat (48 + n13), Char.ofNat (48 + n14)] = none := strptime_none_of_lit (by decide) hslash
    have hf2 : strptime fmt2 [Char.ofNat (48 + n1), Char.ofNat (48 + n2), Char.ofNat (48 + n3), Char.ofNat (48 + n4), '-', Char.ofNat (48 + n5), Char.ofNat (48 + n6), '-', Char.ofNat (48 + n7), Char.ofNat (48 + n8), ' ', Char.ofNat (48 + n9), Char.ofNat (48 + n10), ':', Char.ofNat (48 + n11), Char.ofNat (48 + n12), ':', Char.ofNat (48 + n13), Char.ofNat (48 + n14)] = none := strptime_none_of_lit (by decide) hslash
    have hf3 : strptime fmt3 [Char.ofNat (48 + n1), Char.ofNat (48 + n2), Char.ofNat (48 + n3), Char.ofNat (48 + n4), '-', Char.ofNat (48 + n5), Char.ofNat (48 + n6), '-', Char.ofNat (48 + n7), Char.ofNat (48 + n8), ' ', Char.ofNat (48 + n9), Char.ofNat (48 + n10), ':', Char.ofNat (48 + n11), Char.ofNat (48 + n12), ':', Char.ofNat (48 + n13), Char.ofNat (48 + n14)] = none := strptime_none_of_lit (by decide) hslash
    have hf4 : strptime fmt4 [Char.ofNat (48 + n1), Char.ofNat (48 + n2), Char.ofNat (48 + n3), Char.ofNat (48 + n4), '-', Char.ofNat (48 + n5), Char.ofNat (48 + n6), '-', Char.ofNat (48 + n7), Char.ofNat (48 + n8), ' ', Char.ofNat (48 + n9), Char.ofNat (48 + n10), ':', Char.ofNat (48 + n11), Char.ofNat (48 + n12), ':', Char.ofNat (48 + n13), Char.ofNat (48 + n14)] = none := strptime_none_of_lit (by decide) hdot
    have hf5 : strptime fmt5 [Char.ofNat (48 + n1), Char.ofNat (48 + n2), Char.ofNat (48 + n3), Char.ofNat (48 + n4), '-', Char.ofNat (48 + n5), Char.ofNat (48 + n6), '-', Char.ofNat (48 + n7), Char.ofNat (48 + n8), ' ', Char.ofNat (48 + n9), Char.ofNat (48 + n10), ':', Char.ofNat (48 + n11), Char.ofNat (48 + n12), ':', Char.ofNat (48 + n13), Char.ofNat (48 + n14)] = none := strptime_none_of_lit (by decide) hslash
    have hf6 : strptime fmt6 [Char.ofNat (48 + n1), Char.ofNat (48 + n2), Char.ofNat (48 + n3), Char.ofNat (48 + n4), '-', Char.ofNat (48 + n5), Char.ofNat (48 + n6), '-', Char.ofNat (48 + n7), Char.ofNat (48 + n8), ' ', Char.ofNat (48 + n9), Char.ofNat (48 + n10), ':', Char.ofNat (48 + n11), Char.ofNat (48 + n12), ':', Char.ofNat (48 + n13), Char.ofNat (48 + n14)] = none := strptime_none_of_lit (by decide) hslash
    have hf7 : strptime fmt7 [Char.ofNat (48 + n1), Char.ofNat (48 + n2), Char.ofNat (48 + n3), Char.ofNat (48 + n4), '-', Char.ofNat (48 + n5), Char.ofNat (48 + n6), '-', Char.ofNat (48 + n7), Char.ofNat (48 + n8), ' ', Char.ofNat (48 + n9), Char.ofNat (48 + n10), ':', Char.ofNat (48 + n11), Char.ofNat (48 + n12), ':', Char.ofNat (48 + n13), Char.ofNat (48 + n14)] = none :=
      strptime_none_of_long (by decide) (by rw [hlen19]; decide)
    have htry : tryFormats DATE_FORMATS [Char.ofNat (48 + n1), Char.ofNat (48 + n2), Char.ofNat (48 + n3), Char.ofNat (48 + n4), '-', Char.ofNat (48 + n5), Char.ofNat (48 + n6), '-', Char.ofNat (48 + n7), Char.ofNat (48 + n8), ' ', Char.ofNat (48 + n9), Char.ofNat (48 + n10), ':', Char.ofNat (48 + n11), Char.ofNat (48 + n12), ':', Char.ofNat (48 + n13), Char.ofNat (48 + n14)] = none := by
      simp only [DATE_FORMATS, tryFormats, hf1, hf2, hf3, hf4, hf5, hf6, hf7]
    have htake : ([Char.ofNat (48 + n1), Char.ofNat (48 + n2), Char.ofNat (48 + n3), Char.ofNat (48 + n4), '-', Char.ofNat (48 + n5), Char.ofNat (48 + n6), '-', Char.ofNat (48 + n7), Char.ofNat (48 + n8), ' ', Char.ofNat (48 + n9), Char.ofNat (48 + n10), ':', Char.ofNat (48 + n11), Char.ofNat (48 + n12), ':', Char.ofNat (48 + n13), Char.ofNat (48 + n14)] : List Char).take 19 = [Char.ofNat (48 + n1), Char.ofNat (48 + n2), Char.ofNat (48 + n3), Char.ofNat (48 + n4), '-', Char.ofNat (48 + n5), Char.ofNat (48 + n6), '-', Char.ofNat (48 + n7), Char.ofNat (48 + n8), ' ', Char.ofNat (48 + n9), Char.ofNat (48 + n10), ':', Char.ofNat (48 + n11), Char.ofNat (48 + n12), ':', Char.ofNat (48 + n13), Char.ofNat (48 + n14)] :=
      List.take_of_length_le (by rw [hlen19])
    have hFB2 : strptime FALLBACK2 (List.take 19 ([Char.ofNat (48 + n1), Char.ofNat (48 + n2), Char.ofNat (48 + n3), Char.ofNat (48 + n4), '-', Char.ofNat (48 + n5), Char.ofNat (48 + n6), '-', Char.ofNat (48 + n7), Char.ofNat (48 + n8), ' ', Char.ofNat (48 + n9), Char.ofNat (48 + n10), ':', Char.ofNat (48 + n11), Char.ofNat (48 + n12), ':', Char.ofNat (48 + n13), Char.ofNat (48 + n14)] : List Char)) = none := by
      rw [htake]
      exact strptime_none_of_long (by decide) (by rw [hlen19]; decide)
    have hdig4x : ((Char.ofNat (48 + n1)).isDigit && (Char.ofNat (48 + n2)).isDigit &&
        (Char.ofNat (48 + n3)).isDigit && (Char.ofNat (48 + n4)).isDigit) = true := by
      simp [digc_isDigit n1 hb1, digc_isDigit n2 hb2, digc_isDigit n3 hb3,
        digc_isDigit n4 hb4]
    by_cases hmB : mTwo (Char.ofNat (48 + n5)) (Char.ofNat (48 + n6)) = true
    case neg =>
      have hFB1n : strptime FALLBACK1 ([Char.ofNat (48 + n1), Char.ofNat (48 + n2), Char.ofNat (48 + n3), Char.ofNat (48 + n4), '-', Char.ofNat (48 + n5), Char.ofNat (48 + n6), '-', Char.ofNat (48 + n7), Char.ofNat (48 + n8), ' ', Char.ofNat (48 + n9), Char.ofNat (48 + n10), ':', Char.ofNat (48 + n11), Char.ofNat (48 + n12), ':', Char.ofNat (48 + n13), Char.ofNat (48 + n14)] : List Char) = none := by
        unfold strptime
        simp only [FALLBACK1]
        rw [step_Y4 _ _ _ _ _ _ _ hdig4x, step_lit,
          @fail_num Tok.M mTwo d19 (fun _ => rfl) _ _ _ _ _ (by simpa using hmB)
            (fail_lit _ _ _ hne6.1)]
        rfl
      exact parse_date_id_of_fail hne hstrip htry (by rw [htake]; exact hFB1n) hFB2
    case pos =>
    by_cases hdB : dTwo (Char.ofNat (48 + n7)) (Char.ofNat (48 + n8)) = true
    case neg =>
      have hFB1n : strptime FALLBACK1 ([Char.ofNat (48 + n1), Char.ofNat (48 + n2), Char.ofNat (48 + n3), Char.ofNat (48 + n4), '-', Char.ofNat (48 + n5), Char.ofNat (48 + n6), '-', Char.ofNat (48 + n7), Char.ofNat (48 + n8), ' ', Char.ofNat (48 + n9), Char.ofNat (48 + n10), ':', Char.ofNat (48 + n11), Char.ofNat (48 + n12), ':', Char.ofNat (48 + n13), Char.ofNat (48 + n14)] : List Char) = none := by
        unfold strptime
        simp only [FALLBACK1]
        rw [step_Y4 _ _ _ _ _ _ _ hdig4x, step_lit,
          @step_num Tok.M mTwo d19 (fun _ => rfl) _ _ _ _ _ hmB (fail_lit _ _ _ hne6.1),
          step_lit,
          @fail_num Tok.D dTwo d19 (fun _ => rfl) _ _ _ _ _ (by simpa using hdB)
            (fail_ws _ _ _ hne8.2.2.2.2.2)]
        rfl
      exact parse_date_id_of_fail hne hstrip htry (by rw [htake]; exact hFB1n) hFB2
    case pos =>
    by_cases hhB : hTwo (Char.ofNat (48 + n9)) (Char.ofNat (48 + n10)) = true
    case neg =>
      have hFB1n : strptime FALLBACK1 ([Char.ofNat (48 + n1), Char.ofNat (48 + n2), Char.ofNat (48 + n3), Char.ofNat (48 + n4), '-', Char.ofNat (48 + n5), Char.ofNat (48 + n6), '-', Char.ofNat (48 + n7), Char.ofNat (48 + n8), ' ', Char.ofNat (48 + n9), Char.ofNat (48 + n10), ':', Char.ofNat (48 + n11), Char.ofNat (48 + n12), ':', Char.ofNat (48 + n13), Char.ofNat (48 + n14)] : List Char) = none := by
        unfold strptime
        simp only [FALLBACK1]
        rw [step_Y4 _ _ _ _ _ _ _ hdig4x, step_lit,
          @step_num Tok.M mTwo d19 (fun _ => rfl) _ _ _ _ _ hmB (fail_lit _ _ _ hne6.1),
          step_lit,
          @step_num Tok.D dTwo d19 (fun _ => rfl) _ _ _ _ _ hdB
            (fail_ws _ _ _ hne8.2.2.2.2.2),
          step_ws _ _ _ _ hne9.2.2.2.2.2,
          @fail_num Tok.H24 hTwo Char.isDigit (fun _ => rfl) _ _ _ _ _ (by simpa using hhB)
            (fail_lit _ _ _ hne10.2.1)]
        rfl
      exact parse_date_id_of_fail hne hstrip htry (by rw [htake]; exact hFB1n) hFB2
    case pos =>
    by_cases hmiB : miTwo (Char.ofNat (48 + n11)) (Char.ofNat (48 + n12)) = true
    case neg =>
      have hFB1n : strptime FALLBACK1 ([Char.ofNat (48 + n1), Char.ofNat (48 + n2), Char.ofNat (48 + n3), Char.ofNat (48 + n4), '-', Char.ofNat (48 + n5), Char.ofNat (48 + n6), '-', Char.ofNat (48 + n7), Char.ofNat (48 + n8), ' ', Char.ofNat (48 + n9), Char.ofNat (48 + n10), ':', Char.ofNat (48 + n11), Char.ofNat (48 + n12), ':', Char.ofNat (48 + n13), Char.ofNat (48 + n14)] : List Char) = none := by
        unfold strptime
        simp only [FALLBACK1]
        rw [step_Y4 _ _ _ _ _ _ _ hdig4x, step_lit,
          @step_num Tok.M mTwo d19 (fun _ => rfl) _ _ _ _ _ hmB (fail_lit _ _ _ hne6.1),
          step_lit,
          @step_num Tok.D dTwo d19 (fun _ => rfl) _ _ _ _ _ hdB
            (fail_ws _ _ _ hne8.2.2.2.2.2),
          step_ws _ _ _ _ hne9.2.2.2.2.2,
          @step_num Tok.H24 hTwo Char.isDigit (fun _ => rfl) _ _ _ _ _ hhB
            (fail_lit _ _ _ hne10.2.1),
          step_lit,
          @fail_num Tok.Mi miTwo Char.isDigit (fun _ => rfl) _ _ _ _ _
            (by simpa using hmiB) (fail_lit _ _ _ hne12.2.1)]
        rfl
      exact parse_date_id_of_fail hne hstrip htry (by rw [htake]; exact hFB1n) hFB2
    case pos =>
    by_cases hsB : secTwo (Char.ofNat (48 + n13)) (Char.ofNat (48 + n14)) = true
    case neg =>
      have hFB1n : strptime FALLBACK1 ([Char.ofNat (48 + n1), Char.ofNat (48 + n2), Char.ofNat (48 + n3), Char.ofNat (48 + n4), '-', Char.ofNat (48 + n5), Char.ofNat (48 + n6), '-', Char.ofNat (48 + n7), Char.ofNat (48 + n8), ' ', Char.ofNat (48 + n9), Char.ofNat (48 + n10), ':', Char.ofNat (48 + n11), Char.ofNat (48 + n12), ':', Char.ofNat (48 + n13), Char.ofNat (48 + n14)] : List Char) = none := by
        unfold strptime
        simp only [FALLBACK1]
        rw [step_Y4 _ _ _ _ _ _ _ hdig4x, step_lit,
          @step_num Tok.M mTwo d19 (fun _ => rfl) _ _ _ _ _ hmB (fail_lit _ _ _ hne6.1),
          step_lit,
          @step_num Tok.D dTwo d19 (fun _ => rfl) _ _ _ _ _ hdB
            (fail_ws _ _ _ hne8.2.2.2.2.2),
          step_ws _ _ _ _ hne9.2.2.2.2.2,
          @step_num Tok.H24 hTwo Char.isDigit (fun _ => rfl) _ _ _ _ _ hhB
            (fail_lit _ _ _ hne10.2.1),
          step_lit,
          @step_num Tok.Mi miTwo Char.isDigit (fun _ => rfl) _ _ _ _ _ hmiB
            (fail_lit _ _ _ hne12.2.1),
          step_lit,
          @fail_num Tok.Sec secTwo Char.isDigit (fun _ => rfl) _ _ _ _ _
            (by simpa using hsB) (runToks_nil_cons _ _ _)]
        rfl
      exact parse_date_id_of_fail hne hstrip htry (by rw [htake]; exact hFB1n) hFB2
    case pos =>
    have hrun : runToks FALLBACK1 ([Char.ofNat (48 + n1), Char.ofNat (48 + n2), Char.ofNat (48 + n3), Char.ofNat (48 + n4), '-', Char.ofNat (48 + n5), Char.ofNat (48 + n6), '-', Char.ofNat (48 + n7), Char.ofNat (48 + n8), ' ', Char.ofNat (48 + n9), Char.ofNat (48 + n10), ':', Char.ofNat (48 + n11), Char.ofNat (48 + n12), ':', Char.ofNat (48 + n13), Char.ofNat (48 + n14)] : List Char) {} = some (update Tok.Sec (10 * n13 + n14) (update Tok.Mi (10 * n11 + n12) (update Tok.H24 (10 * n9 + n10) (update Tok.D (10 * n7 + n8) (update Tok.M (10 * n5 + n6) (update Tok.Y4 (((n1 * 10 + n2) * 10 + n3) * 10 + n4) {})))))) := by
      simp only [FALLBACK1]
      rw [step_Y4 _ _ _ _ _ _ _ hdig4x, step_lit,
        @step_num Tok.M mTwo d19 (fun _ => rfl) _ _ _ _ _ hmB (fail_lit _ _ _ hne6.1),
        step_lit,
        @step_num Tok.D dTwo d19 (fun _ => rfl) _ _ _ _ _ hdB
          (fail_ws _ _ _ hne8.2.2.2.2.2),
        step_ws _ _ _ _ hne9.2.2.2.2.2,
        @step_num Tok.H24 hTwo Char.isDigit (fun _ => rfl) _ _ _ _ _ hhB
          (fail_lit _ _ _ hne10.2.1),
        step_lit,
        @step_num Tok.Mi miTwo Char.isDigit (fun _ => rfl) _ _ _ _ _ hmiB
          (fail_lit _ _ _ hne12.2.1),
        step_lit,
        @step_num Tok.Sec secTwo Char.isDigit (fun _ => rfl) _ _ _ _ _ hsB
          (runToks_nil_cons _ _ _)]
      simp only [hdv1, hdv2, hdv3, hdv4, hdv5, hdv6, hdv7, hdv8, hdv9, hdv10, hdv11,
        hdv12, hdv13, hdv14]
      rfl
    have hMb := (mTwo_iff n5 hb5 n6 hb6).mp hmB
    have hDb := (dTwo_iff n7 hb7 n8 hb8).mp hdB
    have hHb := (hTwo_iff n9 hb9 n10 hb10).mp hhB
    have hMib := (miTwo_iff n11 hb11 n12 hb12).mp hmiB
    have hSb := (secTwo_iff n13 hb13 n14 hb14).mp hsB
    by_cases hval : 1 ≤ ((n1 * 10 + n2) * 10 + n3) * 10 + n4 ∧ 10 * n7 + n8 ≤ daysInMonth (((n1 * 10 + n2) * 10 + n3) * 10 + n4) (10 * n5 + n6) ∧ 10 * n13 + n14 ≤ 59
    case pos =>
      have hFB1s : strptime FALLBACK1 ([Char.ofNat (48 + n1), Char.ofNat (48 + n2), Char.ofNat (48 + n3), Char.ofNat (48 + n4), '-', Char.ofNat (48 + n5), Char.ofNat (48 + n6), '-', Char.ofNat (48 + n7), Char.ofNat (48 + n8), ' ', Char.ofNat (48 + n9), Char.ofNat (48 + n10), ':', Char.ofNat (48 + n11), Char.ofNat (48 + n12), ':', Char.ofNat (48 + n13), Char.ofNat (48 + n14)] : List Char) = some ⟨((n1 * 10 + n2) * 10 + n3) * 10 + n4, 10 * n5 + n6, 10 * n7 + n8, 10 * n9 + n10, 10 * n11 + n12, 10 * n13 + n14, 0⟩ := by
        unfold strptime
        rw [hrun]
        show buildDateTime (update Tok.Sec (10 * n13 + n14) (update Tok.Mi (10 * n11 + n12) (update Tok.H24 (10 * n9 + n10) (update Tok.D (10 * n7 + n8) (update Tok.M (10 * n5 + n6) (update Tok.Y4 (((n1 * 10 + n2) * 10 + n3) * 10 + n4) {})))))) = some ⟨((n1 * 10 + n2) * 10 + n3) * 10 + n4, 10 * n5 + n6, 10 * n7 + n8, 10 * n9 + n10, 10 * n11 + n12, 10 * n13 + n14, 0⟩
        rw [buildDateTime_full]
        rw [if_pos ⟨hval.1, by omega, hMb.1, hMb.2, hDb.1, hval.2.1, hHb, hMib,
          hval.2.2, by omega⟩]
      have hcont : ([Char.ofNat (48 + n1), Char.ofNat (48 + n2), Char.ofNat (48 + n3), Char.ofNat (48 + n4), '-', Char.ofNat (48 + n5), Char.ofNat (48 + n6), '-', Char.ofNat (48 + n7), Char.ofNat (48 + n8), ' ', Char.ofNat (48 + n9), Char.ofNat (48 + n10), ':', Char.ofNat (48 + n11), Char.ofNat (48 + n12), ':', Char.ofNat (48 + n13), Char.ofNat (48 + n14)] : List Char).contains ' ' = true := by
        simp
      have hrender : strftimeFull ⟨((n1 * 10 + n2) * 10 + n3) * 10 + n4, 10 * n5 + n6, 10 * n7 + n8, 10 * n9 + n10, 10 * n11 + n12, 10 * n13 + n14, 0⟩ = String.mk [Char.ofNat (48 + n1), Char.ofNat (48 + n2), Char.ofNat (48 + n3), Char.ofNat (48 + n4), '-', Char.ofNat (48 + n5), Char.ofNat (48 + n6), '-', Char.ofNat (48 + n7), Char.ofNat (48 + n8), ' ', Char.ofNat (48 + n9), Char.ofNat (48 + n10), ':', Char.ofNat (48 + n11), Char.ofNat (48 + n12), ':', Char.ofNat (48 + n13), Char.ofNat (48 + n14)] := by
        simp only [strftimeFull]
        rw [pad4_digits hb1 hb2 hb3 hb4, pad2_digits hb5 hb6, pad2_digits hb7 hb8,
          pad2_digits hb9 hb10, pad2_digits hb11 hb12, pad2_digits hb13 hb14]
        rfl
      exact (parse_date_full_of_fb1 hne hstrip htry (by rw [htake]; exact hFB1s)
        hcont).trans hrender
    case neg =>
      have hFB1n : strptime FALLBACK1 ([Char.ofNat (48 + n1), Char.ofNat (48 + n2), Char.ofNat (48 + n3), Char.ofNat (48 + n4), '-', Char.ofNat (48 + n5), Char.ofNat (48 + n6), '-', Char.ofNat (48 + n7), Char.ofNat (48 + n8), ' ', Char.ofNat (48 + n9), Char.ofNat (48 + n10), ':', Char.ofNat (48 + n11), Char.ofNat (48 + n12), ':', Char.ofNat (48 + n13), Char.ofNat (48 + n14)] : List Char) = none := by
        unfold strptime
        rw [hrun]
        show buildDateTime (update Tok.Sec (10 * n13 + n14) (update Tok.Mi (10 * n11 + n12) (update Tok.H24 (10 * n9 + n10) (update Tok.D (10 * n7 + n8) (update Tok.M (10 * n5 + n6) (update Tok.Y4 (((n1 * 10 + n2) * 10 + n3) * 10 + n4) {})))))) = none
        rw [buildDateTime_full]
        rw [if_neg ?_]
        intro hc
        obtain ⟨q1, q2, q3, q4, q5, q6, q7, q8, q9, q10⟩ := hc
        exact hval ⟨q1, q6, q9⟩
      exact parse_date_id_of_fail hne hstrip htry (by rw [htake]; exact hFB1n) hFB2
  next => simp at h

/-- C8 witness: a concrete canonical value round-trips, and a
shape-conforming but impossible date is also returned unchanged. -/
theorem c8_witness :
    parse_date "2025-12-10 11:44:34" = "2025-12-10 11:44:34" ∧
    parse_date "2025-99-99 99:99:99" = "2025-99-99 99:99:99" :=
  ⟨(c8_canonical_roundtrip "2025-12-10 11:44:34" (by decide)),
   (c8_canonical_roundtrip "2025-99-99 99:99:99" (by decide))⟩
